import Mathlib

/-!
# Verification of the clubmate-snake joystick input subsystem (`src/input.c`)

This file gives a shallow embedding of the hotplug-aware joystick input
subsystem and proves/refutes the specification claims about it.

Conventions of the embedding:
* The static array `struct joystick joysticks[MAX_JOYSTICKS]` is a
  `List Joystick` of length `MAX_JOYSTICKS`; `num_joysticks` is a `Nat`.
* File descriptors are `Int`s, with `-1` the "free slot" sentinel exactly as
  in the C source.  A successfully `open(2)`ed descriptor is nonnegative, so
  opens store `Int.ofNat fd`.
* Syscall outcomes (`open`, `ioctl` probes, `stat`) are parameters of the
  embedded functions, since they are environment inputs.
* `MAX_JOYSTICKS` and `KEY_HISTORY_SIZE` come from the header
  `matelight.h`, which is not part of the sources; all definitions are
  parametric in these two capacities (`MAX` and `H`).
-/

set_option autoImplicit false

namespace Clubmate

/-- Modelled from the spec: the logical key set is a bitmask over
{UP, DOWN, LEFT, RIGHT, A, B, SELECT, START}, with NONE = no key.  The
`KEYPAD_*` constants live in the missing header `matelight.h`; the code uses
them as disjoint bitmask values (`key_state |= key_idx`, `key_state &= ~key_idx`)
and `KEYPAD_NONE` as the "no key" value, so we model them as distinct powers
of two and `KEYPAD_NONE = 0`. -/
def KEYPAD_NONE : Nat := 0

/-- Modelled from the spec: UP bit of the key bitmask. -/
def KEYPAD_UP : Nat := 1

/-- Modelled from the spec: DOWN bit of the key bitmask. -/
def KEYPAD_DOWN : Nat := 2

/-- Modelled from the spec: LEFT bit of the key bitmask. -/
def KEYPAD_LEFT : Nat := 4

/-- Modelled from the spec: RIGHT bit of the key bitmask. -/
def KEYPAD_RIGHT : Nat := 8

/-- Modelled from the spec: A-button bit of the key bitmask. -/
def KEYPAD_A : Nat := 16

/-- Modelled from the spec: B-button bit of the key bitmask. -/
def KEYPAD_B : Nat := 32

/-- Modelled from the spec: SELECT bit of the key bitmask. -/
def KEYPAD_SELECT : Nat := 64

/-- Modelled from the spec: START bit of the key bitmask. -/
def KEYPAD_START : Nat := 128

/-- Constant `JS_EVENT_BUTTON` from `linux/joystick.h` (device protocol). -/
def JS_EVENT_BUTTON : Nat := 1

/-- Constant `JS_EVENT_AXIS` from `linux/joystick.h` (device protocol). -/
def JS_EVENT_AXIS : Nat := 2

/-- Constant `JS_EVENT_INIT` from `linux/joystick.h` (device protocol). -/
def JS_EVENT_INIT : Nat := 128

/-- Linux `EINVAL`. -/
def EINVAL : Nat := 22

/-- Linux `ENOMEM`. -/
def ENOMEM : Nat := 12

/-- One entry of the static `joysticks` array (`struct joystick`, declared in
the missing `matelight.h`; its fields are read off from every use in
`src/input.c`).  `fd = -1` marks a free slot. -/
structure Joystick where
  fd : Int
  devnode : String
  dev : Nat
  axes : Int
  buttons : Int
  name : String
  player : Nat
  key_state : Nat
  last_key_idx : Nat
  last_key_val : Bool
  key_history : List Nat
  deriving Repr, DecidableEq

/-- The all-zero joystick record: the static array is zero-initialised
(`= { 0 }`), so untouched slots have `fd = 0`, not `-1`. -/
def zeroJoystick (H : Nat) : Joystick :=
  { fd := 0, devnode := "", dev := 0, axes := 0, buttons := 0, name := ""
    player := 0, key_state := 0, last_key_idx := 0, last_key_val := false
    key_history := List.replicate H 0 }

/-- The mutable module state of `input.c`: the `joysticks` array,
`num_joysticks`, and the udev context/monitor pointers (modelled as
"is non-NULL" booleans). -/
structure InputState where
  joysticks : List Joystick
  num_joysticks : Nat
  udev_ctx : Bool
  udev_monitor : Bool
  deriving Repr, DecidableEq

/-- The state at program start: zeroed array, no joysticks, no udev. -/
def initState (MAX H : Nat) : InputState :=
  { joysticks := List.replicate MAX (zeroJoystick H)
    num_joysticks := 0
    udev_ctx := false
    udev_monitor := false }

/-! ## `input_reset` (src/input.c lines 23-44) -/

/-- The close loop of `input_reset`: for the first `n` slots, close the
descriptor when it is not `-1` and mark the slot free. -/
def closeSlots : Nat → List Joystick → List Joystick
  | _, [] => []
  | 0, l => l
  | n + 1, j :: t =>
      (if j.fd ≠ -1 then { j with fd := -1 } else j) :: closeSlots n t

/-- Function `input_reset`: close all active descriptors, zero the count, and release
the udev monitor/context.  Note the C code only nulls `udev_monitor` inside
the `udev_ctx != NULL` branch. -/
def input_reset (s : InputState) : InputState :=
  { joysticks := closeSlots s.num_joysticks s.joysticks
    num_joysticks := 0
    udev_ctx := false
    udev_monitor := if s.udev_ctx then false else s.udev_monitor }

/-! ## `get_free_joystick` (src/input.c lines 46-63) -/

/-- The scan loop of `get_free_joystick` over the first `num_joysticks`
entries: index of the first slot with `fd == -1`, if any. -/
def findFreeIdx : List Joystick → Option Nat
  | [] => none
  | j :: t => if j.fd = -1 then some 0 else (findFreeIdx t).map (· + 1)

/-- Function `get_free_joystick`: the returned slot index (`none` = `NULL`) together
with the updated state (the grow branch writes `fd = -1` into the new slot
and increments `num_joysticks`). -/
def get_free_joystick (MAX H : Nat) (s : InputState) : Option Nat × InputState :=
  match findFreeIdx (s.joysticks.take s.num_joysticks) with
  | some i => (some i, s)
  | none =>
      if s.num_joysticks < MAX then
        (some s.num_joysticks,
          { s with
            joysticks := s.joysticks.set s.num_joysticks
              { s.joysticks.getD s.num_joysticks (zeroJoystick H) with fd := -1 }
            num_joysticks := s.num_joysticks + 1 })
      else
        (none, s)

/-! ## `get_available_player` (src/input.c lines 65-81) -/

/-- Maximum player number stored in a list of slots (used only as a
termination measure for the scan loop below). -/
def maxPlayer (l : List Joystick) : Nat :=
  l.foldr (fun j m => max j.player m) 0

theorem player_le_maxPlayer {l : List Joystick} {j : Joystick} (h : j ∈ l) :
    j.player ≤ maxPlayer l := by
  induction l with
  | nil => cases h
  | cons a t ih =>
      rcases List.mem_cons.mp h with rfl | ht
      · exact Nat.le_max_left _ _
      · exact Nat.le_trans (ih ht) (Nat.le_max_right _ _)

/-- The scan loop of `get_available_player` on the first `num_joysticks`
slots (passed as the list `l`).  The C loop body is
`if (fd == -1) continue; if (player == candidate) { candidate++; i = 0; }`
followed by the `for` increment `i++`, so after a match the next index
examined is `1`, not `0`. -/
def gapLoop (l : List Joystick) (player : Nat) (i : Nat) : Nat :=
  if h : i < l.length then
    if (l.get ⟨i, h⟩).fd ≠ -1 ∧ (l.get ⟨i, h⟩).player = player then
      gapLoop l (player + 1) 1
    else gapLoop l player (i + 1)
  else player
termination_by (maxPlayer l + 1 - player, l.length - i)
decreasing_by
  · apply Prod.Lex.left
    have hle : (l.get ⟨i, h⟩).player ≤ maxPlayer l :=
      player_le_maxPlayer (l.get_mem _ _)
    rename_i hcond
    omega
  · apply Prod.Lex.right
    omega

/-- Function `get_available_player`: scan candidate player numbers starting at 1,
restarting the scan whenever an active slot already holds the candidate. -/
def get_available_player (s : InputState) : Nat :=
  gapLoop (s.joysticks.take s.num_joysticks) 1 0

/-- The multiset of player numbers currently held by active slots. -/
def activePlayers (s : InputState) : List Nat :=
  ((s.joysticks.take s.num_joysticks).filter (fun j => j.fd ≠ -1)).map
    (fun j => j.player)

/-! ## `open_joystick` (src/input.c lines 83-155) -/

/-- Result of a call to `open_joystick`: its boolean return value, the new
module state, whether `close(2)` was called on the freshly opened descriptor
before a `false` return, and the `errno` value the function left behind
(`none` = untouched by `open_joystick` itself). -/
structure OpenOutcome where
  ret : Bool
  state : InputState
  fdClosed : Bool
  errnoSet : Option Nat
  deriving Repr, DecidableEq

/-- The slot-populating tail of `open_joystick` (lines 129-154), reached once
the descriptor is open and validation has passed.  Note line 150 of the
source zeroes `joysticks[num_joysticks].key_history` — indexing with the
*current* `num_joysticks`, not the slot that was just populated.  (When
`num_joysticks = MAX_JOYSTICKS` that memset writes past the end of the
array; `List.set` out of range is a no-op, so the model only covers the
in-bounds executions.) -/
def openPopulate (MAX H : Nat) (devnode : String) (st_rdev : Nat) (fdv : Nat)
    (axes buttons : Int) (name : String) (s : InputState) : OpenOutcome :=
  match get_free_joystick MAX H s with
  | (none, s1) => ⟨false, s1, true, some ENOMEM⟩
  | (some idx, s1) =>
      let player := get_available_player s1
      let slot := s1.joysticks.getD idx (zeroJoystick H)
      let slot' := { slot with
        fd := Int.ofNat fdv, devnode := devnode, dev := st_rdev
        axes := axes, buttons := buttons, name := name, player := player
        key_state := 0, last_key_idx := KEYPAD_NONE, last_key_val := false }
      let s2 := { s1 with joysticks := s1.joysticks.set idx slot' }
      let wrong := s2.joysticks.getD s2.num_joysticks (zeroJoystick H)
      let s3 := { s2 with
        joysticks := s2.joysticks.set s2.num_joysticks
          { wrong with key_history := List.replicate H 0 } }
      ⟨true, s3, false, none⟩

/-- Function `open_joystick devnode st check_joydev`.  The outcomes of the syscalls
are parameters: `openRes` is the result of `open(2)` (`none` = failure,
`some fdv` = descriptor number), `probe` the `JSIOCGVERSION` ioctl
(`.error e` = failure with errno `e`, `.ok v` = reported version), and
`axesQ`/`buttonsQ`/`nameQ` the best-effort capability ioctls.  Note that in
the strict path the source returns `false` on `version == 0` *without*
closing the descriptor (lines 113-116). -/
def open_joystick (MAX H : Nat) (devnode : String) (st_rdev : Nat)
    (openRes : Option Nat) (probe : Except Nat Int)
    (axesQ buttonsQ : Option Int) (nameQ : Option String)
    (check_joydev : Bool) (s : InputState) : OpenOutcome :=
  match openRes with
  | none => ⟨false, s, false, none⟩
  | some fdv =>
      let axes := axesQ.getD 0
      let buttons := buttonsQ.getD 0
      let name := nameQ.getD ""
      if check_joydev then
        match probe with
        | .error e => ⟨false, s, true, some e⟩
        | .ok version =>
            if version = 0 then ⟨false, s, false, some EINVAL⟩
            else openPopulate MAX H devnode st_rdev fdv axes buttons name s
      else
        openPopulate MAX H devnode st_rdev fdv axes buttons name s

/-! ## `add_udev_device` / `remove_udev_device` (src/input.c lines 177-239) -/

/-- The duplicate-identity scan of `add_udev_device` (lines 198-206): is some
active slot already bound to device id `rdev`? -/
def hasDuplicateDev (s : InputState) (rdev : Nat) : Bool :=
  (s.joysticks.take s.num_joysticks).any (fun j => j.fd ≠ -1 && j.dev == rdev)

/-- Function `add_udev_device`: `devnode = none` models a NULL device or NULL/empty
devnode, `statRes` the result of `stat(2)` (`some rdev` = the `st_rdev`
identity).  The returned boolean records whether `open_joystick` was
invoked. -/
def add_udev_device (MAX H : Nat) (devnode : Option String)
    (statRes : Option Nat) (openRes : Option Nat) (probe : Except Nat Int)
    (axesQ buttonsQ : Option Int) (nameQ : Option String)
    (s : InputState) : InputState × Bool :=
  match devnode with
  | none => (s, false)
  | some dn =>
      if dn = "" then (s, false)
      else
        match statRes with
        | none => (s, false)
        | some rdev =>
            if hasDuplicateDev s rdev then (s, false)
            else
              ((open_joystick MAX H dn rdev openRes probe axesQ buttonsQ nameQ
                true s).state, true)

/-- The removal loop of `remove_udev_device` (lines 229-238) over the first
`n` slots: close and free every active slot whose stored devnode matches. -/
def removeSlots (devnode : String) : Nat → List Joystick → List Joystick
  | _, [] => []
  | 0, l => l
  | n + 1, j :: t =>
      (if j.fd ≠ -1 ∧ j.devnode = devnode then { j with fd := -1 } else j) ::
        removeSlots devnode n t

/-- Function `remove_udev_device` (`devnode = none` models a NULL device or devnode). -/
def remove_udev_device (devnode : Option String) (s : InputState) : InputState :=
  match devnode with
  | none => s
  | some dn =>
      if dn = "" then s
      else { s with joysticks := removeSlots dn s.num_joysticks s.joysticks }

/-- The state effect of a successful `init_udev_hotplug` (lines 241-297) on
the module globals: the context is (re)created and the monitor creation may
fail, leaving it NULL.  (The enumeration pass then issues
`add_udev_device` calls, which are separate steps.) -/
def init_udev_hotplug_state (monitorOk : Bool) (s : InputState) : InputState :=
  { s with udev_ctx := true, udev_monitor := monitorOk }

/-! ## `read_joystick` event decoding (src/input.c lines 343-468) -/

/-- One `struct js_event` (`linux/joystick.h`): 32-bit timestamp, signed
16-bit value, 8-bit type and number. -/
structure JsEvent where
  time : Nat
  value : Int
  type : Nat
  number : Nat
  deriving Repr, DecidableEq

/-- The button-number-to-key mapping of the `JS_EVENT_BUTTON` case
(lines 370-385). -/
def buttonKeyIdx (number : Nat) : Nat :=
  if number = 8 then KEYPAD_SELECT
  else if number = 9 then KEYPAD_START
  else if number = 0 then KEYPAD_B
  else if number = 1 then KEYPAD_A
  else KEYPAD_NONE

/-- The event-decoding `switch` of `read_joystick` (lines 368-459), acting on
the joystick record that yielded the event.  `event.type & ~JS_EVENT_INIT`
on an 8-bit type is `type & 0x7f`. -/
def decodeEvent (ev : JsEvent) (j : Joystick) : Joystick :=
  if ev.type &&& 127 = JS_EVENT_BUTTON then
    if buttonKeyIdx ev.number ≠ KEYPAD_NONE then
      { j with
        last_key_idx := buttonKeyIdx ev.number
        last_key_val := decide (ev.value ≠ 0)
        key_state :=
          if decide (ev.value ≠ 0) then j.key_state ||| buttonKeyIdx ev.number
          else Nat.ldiff j.key_state (buttonKeyIdx ev.number) }
    else { j with last_key_idx := KEYPAD_NONE, last_key_val := false }
  else if ev.type &&& 127 = JS_EVENT_AXIS then
    if ev.number = 0 then
      if ev.value ≤ -1024 then
        { j with
          last_key_idx := KEYPAD_LEFT, last_key_val := true
          key_state := Nat.ldiff (j.key_state ||| KEYPAD_LEFT) KEYPAD_RIGHT }
      else if ev.value ≥ 1024 then
        { j with
          last_key_idx := KEYPAD_RIGHT, last_key_val := true
          key_state := Nat.ldiff j.key_state KEYPAD_LEFT ||| KEYPAD_RIGHT }
      else
        { j with
          last_key_idx :=
            if j.key_state &&& KEYPAD_LEFT ≠ 0 then KEYPAD_LEFT
            else if j.key_state &&& KEYPAD_RIGHT ≠ 0 then KEYPAD_RIGHT
            else KEYPAD_NONE
          last_key_val := false
          key_state := Nat.ldiff (Nat.ldiff j.key_state KEYPAD_LEFT) KEYPAD_RIGHT }
    else if ev.number = 1 then
      if ev.value ≤ -1024 then
        { j with
          last_key_idx := KEYPAD_UP, last_key_val := true
          key_state := Nat.ldiff (j.key_state ||| KEYPAD_UP) KEYPAD_DOWN }
      else if ev.value ≥ 1024 then
        { j with
          last_key_idx := KEYPAD_DOWN, last_key_val := true
          key_state := Nat.ldiff j.key_state KEYPAD_UP ||| KEYPAD_DOWN }
      else
        { j with
          last_key_idx :=
            if j.key_state &&& KEYPAD_UP ≠ 0 then KEYPAD_UP
            else if j.key_state &&& KEYPAD_DOWN ≠ 0 then KEYPAD_DOWN
            else KEYPAD_NONE
          last_key_val := false
          key_state := Nat.ldiff (Nat.ldiff j.key_state KEYPAD_UP) KEYPAD_DOWN }
    else { j with last_key_idx := KEYPAD_NONE, last_key_val := false }
  else { j with last_key_idx := KEYPAD_NONE, last_key_val := false }

/-- The history update of `read_joystick` (lines 461-464): on a press of a
real key, shift the whole buffer one place towards higher indices (dropping
the oldest entry) and store the key at index 0. -/
def pushHistory (j : Joystick) : Joystick :=
  if j.last_key_idx ≠ KEYPAD_NONE ∧ j.last_key_val = true then
    { j with key_history := j.last_key_idx :: j.key_history.dropLast }
  else j

/-- The full per-event effect of `read_joystick` on the joystick that
yielded the event: decode, then update the history. -/
def processEvent (ev : JsEvent) (j : Joystick) : Joystick :=
  pushHistory (decodeEvent ev j)

/-- One `read_joystick` call in which the active slot `i` yielded event
`ev` (which active slot has data ready is an environment input). -/
def readStep (H : Nat) (i : Nat) (ev : JsEvent) (s : InputState) : InputState :=
  if i < s.num_joysticks ∧ (s.joysticks.getD i (zeroJoystick H)).fd ≠ -1 then
    { s with
      joysticks := s.joysticks.set i
        (processEvent ev (s.joysticks.getD i (zeroJoystick H))) }
  else s

/-! ## `count_joysticks` (src/input.c lines 470-482) -/

/-- The counting loop of `count_joysticks` over the first `n` slots. -/
def countLoop : Nat → List Joystick → Nat
  | _, [] => 0
  | 0, _ => 0
  | n + 1, j :: t => (if j.fd ≠ -1 then 1 else 0) + countLoop n t

/-- Function `count_joysticks`: number of slots below `num_joysticks` holding a valid
descriptor. -/
def count_joysticks (s : InputState) : Nat :=
  countLoop s.num_joysticks s.joysticks

/-! ## `joystick_is_key_seq` (src/input.c lines 484-500) -/

/-- The comparison loop of `joystick_is_key_seq`: walk `si` up and
`hi = seq_length - 1 - si` down, comparing `key_history[hi]` with
`seq[si]`; `rest` is the tail of the sequence from position `si` on. -/
def seqLoop (hist : List Nat) (L : Nat) : List Nat → Nat → Bool
  | [], _ => true
  | x :: rest, si =>
      if hist.getD (L - 1 - si) 0 = x then seqLoop hist L rest (si + 1)
      else false

/-- Function `joystick_is_key_seq(joystick, seq, seq_length)`: `none` models a NULL
joystick pointer; `H` is `KEY_HISTORY_SIZE`. -/
def joystick_is_key_seq (H : Nat) (j : Option Joystick) (seq : List Nat) :
    Bool :=
  match j with
  | none => false
  | some j =>
      if seq.length > H then false
      else seqLoop j.key_history seq.length seq 0

/-! ## The subsystem step relation -/

/-- One externally triggerable mutation of the module state: an explicit
`open_joystick` (via `init_joystick` or the hotplug adapter), an
`add_udev_device`, a `remove_udev_device`, an `input_reset`, a successful
`init_udev_hotplug`, or a `read_joystick` decoding one event. -/
inductive Step (MAX H : Nat) : InputState → InputState → Prop
  | openJs (devnode : String) (st_rdev : Nat) (openRes : Option Nat)
      (probe : Except Nat Int) (axesQ buttonsQ : Option Int)
      (nameQ : Option String) (check : Bool) (s : InputState) :
      Step MAX H s
        (open_joystick MAX H devnode st_rdev openRes probe axesQ buttonsQ
          nameQ check s).state
  | add (devnode : Option String) (statRes openRes : Option Nat)
      (probe : Except Nat Int) (axesQ buttonsQ : Option Int)
      (nameQ : Option String) (s : InputState) :
      Step MAX H s
        (add_udev_device MAX H devnode statRes openRes probe axesQ buttonsQ
          nameQ s).1
  | remove (devnode : Option String) (s : InputState) :
      Step MAX H s (remove_udev_device devnode s)
  | reset (s : InputState) : Step MAX H s (input_reset s)
  | hotplugInit (monitorOk : Bool) (s : InputState) :
      Step MAX H s (init_udev_hotplug_state monitorOk s)
  | read (i : Nat) (ev : JsEvent) (s : InputState) :
      Step MAX H s (readStep H i ev s)

/-- States reachable from the initial state by subsystem operations. -/
inductive Reachable (MAX H : Nat) : InputState → Prop
  | init : Reachable MAX H (initState MAX H)
  | step {s s' : InputState} :
      Reachable MAX H s → Step MAX H s s' → Reachable MAX H s'

/-- A joystick (history capacity 10) whose presses occurred in chronological
order A, then B, then LEFT: newest-first the history reads LEFT, B, A. -/
def exampleHistoryJoystick : Joystick :=
  { zeroJoystick 10 with
      fd := 3
      key_history := [KEYPAD_LEFT, KEYPAD_B, KEYPAD_A, 0, 0, 0, 0, 0, 0, 0] }

/-- A concrete registry (capacity 3, history size 2): slot 0 freed with a
stale history, slot 1 active, slot 2 untouched.  Used to exhibit the
misdirected history memset of `open_joystick`. -/
def staleHistoryState : InputState :=
  { joysticks :=
      [ { zeroJoystick 2 with
            fd := -1, devnode := "a", dev := 10, player := 1
            key_history := [7, 7] },
        { zeroJoystick 2 with
            fd := 6, devnode := "b", dev := 11, player := 2
            key_history := [3, 3] },
        { zeroJoystick 2 with key_history := [9, 9] } ]
    num_joysticks := 2
    udev_ctx := false
    udev_monitor := false }

/-- Index of the first free slot of a slot list (= the list's length when
every slot is active).  Specification-side notion used to characterise
`get_available_player` on reachable states. -/
def firstFree : List Joystick → Nat
  | [] => 0
  | j :: t => if j.fd = -1 then 0 else firstFree t + 1

/-- The registry invariant that makes player assignment minimal: in the
scanned prefix, every active slot at index `i` holds player `i + 1`. -/
def PlayerInv (l : List Joystick) : Prop :=
  ∀ i, ∀ h : i < l.length,
    (l.get ⟨i, h⟩).fd ≠ -1 → (l.get ⟨i, h⟩).player = i + 1

/-- The inductive state invariant behind minimal player assignment: the
array has length `MAX_JOYSTICKS`, the count is within capacity, and every
active slot in the scanned prefix holds the player number `index + 1`. -/
def StateInv (MAX : Nat) (s : InputState) : Prop :=
  s.joysticks.length = MAX ∧ s.num_joysticks ≤ MAX ∧
    PlayerInv (s.joysticks.take s.num_joysticks)

/-- The registry (capacity 3, history size 1) obtained by opening device
"a", opening device "b", then hot-removing "a": slot 1 is active holding
player 2 while player 1 is no longer held by anyone. -/
def removedFirstState : InputState :=
  remove_udev_device (some "a")
    (open_joystick 3 1 "b" 11 (some 6) (.ok 1) none none none false
      (open_joystick 3 1 "a" 10 (some 5) (.ok 1) none none none false
        (initState 3 1)).state).state

end Clubmate

/-! # Theorems -/

namespace Clubmate

/-! ## Helper lemmas -/

theorem closeSlots_zero (l : List Joystick) : closeSlots 0 l = l := by
  cases l <;> rfl

theorem closeSlots_length (n : Nat) (l : List Joystick) :
    (closeSlots n l).length = l.length := by
  induction l generalizing n with
  | nil => cases n <;> rfl
  | cons j t ih =>
      cases n with
      | zero => rfl
      | succ m => simpa [closeSlots] using ih m

theorem closeSlots_getD_fd (d : Joystick) (n : Nat) (l : List Joystick)
    (i : Nat) (hi : i < n) (hl : i < l.length) :
    ((closeSlots n l).getD i d).fd = -1 := by
  induction l generalizing n i with
  | nil => simp at hl
  | cons j t ih =>
      cases n with
      | zero => omega
      | succ m =>
          cases i with
          | zero =>
              simp only [closeSlots, List.getD_cons_zero]
              by_cases h : j.fd = -1 <;> simp [h]
          | succ k =>
              simp only [closeSlots, List.getD_cons_succ]
              exact ih m k (by omega) (by simpa using hl)

/-- Claim C9: `input_reset` closes every active slot (marking it free),
zeroes `num_joysticks`, nulls the udev context and monitor, and is
idempotent: resetting an already-reset (or never-initialised) state is a
no-op. -/
theorem input_reset_correct (MAX H : Nat) (s : InputState)
    (hlen : s.num_joysticks ≤ s.joysticks.length)
    (hmon : s.udev_monitor = true → s.udev_ctx = true) :
    (input_reset s).num_joysticks = 0 ∧
    (∀ i, i < s.num_joysticks →
      ((input_reset s).joysticks.getD i (zeroJoystick H)).fd = -1) ∧
    (input_reset s).udev_ctx = false ∧
    (input_reset s).udev_monitor = false ∧
    input_reset (input_reset s) = input_reset s ∧
    input_reset (initState MAX H) = initState MAX H := by
  refine ⟨rfl, ?_, rfl, ?_, ?_, ?_⟩
  · intro i hi
    exact closeSlots_getD_fd _ _ _ _ hi (by omega)
  · show (if s.udev_ctx then false else s.udev_monitor) = false
    by_cases h : s.udev_ctx
    · simp [h]
    · have : s.udev_monitor = false := by
        cases hmon' : s.udev_monitor
        · rfl
        · exact absurd (hmon hmon') h
      simp [h, this]
  · show input_reset (input_reset s) = input_reset s
    simp [input_reset, closeSlots_zero]
  · show input_reset (initState MAX H) = initState MAX H
    simp [input_reset, initState, closeSlots_zero]

/-- Witness for C9 at a concrete registry with an active slot (and no udev
monitor without a context). -/
theorem input_reset_correct_witness :
    (staleHistoryState.num_joysticks ≤ staleHistoryState.joysticks.length) ∧
    (input_reset staleHistoryState).num_joysticks = 0 ∧
    (∀ i, i < staleHistoryState.num_joysticks →
      ((input_reset staleHistoryState).joysticks.getD i (zeroJoystick 2)).fd
        = -1) ∧
    (input_reset staleHistoryState).udev_ctx = false ∧
    (input_reset staleHistoryState).udev_monitor = false ∧
    input_reset (input_reset staleHistoryState) = input_reset staleHistoryState ∧
    input_reset (initState 3 2) = initState 3 2 :=
  ⟨by decide,
    input_reset_correct 3 2 staleHistoryState (by decide) (by decide)⟩

theorem getD_take {α : Type} {l : List α} {n i : Nat} (d : α) (h : i < n) :
    (l.take n).getD i d = l.getD i d := by
  induction l generalizing n i with
  | nil => simp
  | cons j t ih =>
      cases n with
      | zero => omega
      | succ m =>
          cases i with
          | zero => simp
          | succ k =>
              simp only [List.take_succ_cons, List.getD_cons_succ]
              exact ih (show k < m by omega)

theorem getD_set_eq {α : Type} (l : List α) (i : Nat) (a d : α)
    (h : i < l.length) : (l.set i a).getD i d = a := by
  induction l generalizing i with
  | nil => simp at h
  | cons b t ih =>
      cases i with
      | zero => simp
      | succ k => simpa using ih k (by simpa using h)

theorem getD_set_ne {α : Type} (l : List α) (i j : Nat) (a d : α)
    (h : i ≠ j) : (l.set i a).getD j d = l.getD j d := by
  induction l generalizing i j with
  | nil => simp
  | cons b t ih =>
      cases i with
      | zero =>
          cases j with
          | zero => omega
          | succ m => simp
      | succ k =>
          cases j with
          | zero => simp
          | succ m => simpa using ih k m (by omega)

theorem findFreeIdx_some (d : Joystick) (l : List Joystick) :
    ∀ i, findFreeIdx l = some i →
      i < l.length ∧ (l.getD i d).fd = -1 ∧
        ∀ j, j < i → (l.getD j d).fd ≠ -1 := by
  induction l with
  | nil => intro i h; simp [findFreeIdx] at h
  | cons a t ih =>
      intro i h
      by_cases hf : a.fd = -1
      · simp only [findFreeIdx, if_pos hf] at h
        obtain rfl : i = 0 := by simpa using h.symm
        exact ⟨by simp, by simpa using hf, by omega⟩
      · simp only [findFreeIdx, if_neg hf] at h
        cases ht : findFreeIdx t with
        | none => rw [ht] at h; simp at h
        | some k =>
            rw [ht] at h
            simp only [Option.map_some'] at h
            obtain ⟨h1, h2, h3⟩ := ih k ht
            obtain rfl : i = k + 1 := by simpa using h.symm
            refine ⟨by simpa using h1, by simpa using h2, ?_⟩
            intro j hj
            cases j with
            | zero => simpa using hf
            | succ m => simpa using h3 m (by omega)

theorem findFreeIdx_none (d : Joystick) (l : List Joystick) :
    findFreeIdx l = none → ∀ j, j < l.length → (l.getD j d).fd ≠ -1 := by
  induction l with
  | nil => intro _ j hj; simp at hj
  | cons a t ih =>
      intro h j hj
      by_cases hf : a.fd = -1
      · simp [findFreeIdx, hf] at h
      · simp only [findFreeIdx, if_neg hf] at h
        cases ht : findFreeIdx t with
        | none =>
            cases j with
            | zero => simpa using hf
            | succ m => exact ih ht m (by simpa using hj)
        | some k => rw [ht] at h; simp at h

theorem findFreeIdx_isSome (d : Joystick) (l : List Joystick) (i : Nat)
    (hi : i < l.length) (hf : (l.getD i d).fd = -1) :
    ∃ k, findFreeIdx l = some k := by
  by_contra h
  push_neg at h
  have hn : findFreeIdx l = none := by
    cases hx : findFreeIdx l with
    | none => rfl
    | some k => exact absurd hx (h k)
  exact findFreeIdx_none d l hn i hi hf

/-- Claim C7: slot allocation returns the lowest-indexed free slot if one
exists (registry unchanged); otherwise, if `num_joysticks < MAX_JOYSTICKS`,
it grows the count and returns the new slot (with `fd = -1`); otherwise it
fails, in which case `open_joystick` closes the handle, sets `errno` to
`ENOMEM`, returns `false`, and leaves the registry unchanged. -/
theorem get_free_joystick_correct (MAX H : Nat) (s : InputState)
    (hlen : s.joysticks.length = MAX) (hnum : s.num_joysticks ≤ MAX) :
    ((∃ i, i < s.num_joysticks ∧
        (s.joysticks.getD i (zeroJoystick H)).fd = -1) →
      ∃ k, get_free_joystick MAX H s = (some k, s) ∧
        k < s.num_joysticks ∧
        (s.joysticks.getD k (zeroJoystick H)).fd = -1 ∧
        ∀ j, j < k → (s.joysticks.getD j (zeroJoystick H)).fd ≠ -1) ∧
    ((∀ i, i < s.num_joysticks →
        (s.joysticks.getD i (zeroJoystick H)).fd ≠ -1) →
      s.num_joysticks < MAX →
      (get_free_joystick MAX H s).1 = some s.num_joysticks ∧
      (get_free_joystick MAX H s).2.num_joysticks = s.num_joysticks + 1 ∧
      ((get_free_joystick MAX H s).2.joysticks.getD s.num_joysticks
        (zeroJoystick H)).fd = -1) ∧
    ((∀ i, i < s.num_joysticks →
        (s.joysticks.getD i (zeroJoystick H)).fd ≠ -1) →
      s.num_joysticks = MAX →
      get_free_joystick MAX H s = (none, s) ∧
      (∀ devnode st_rdev fdv axesQ buttonsQ nameQ probe,
        open_joystick MAX H devnode st_rdev (some fdv) probe axesQ buttonsQ
          nameQ false s = ⟨false, s, true, some ENOMEM⟩) ∧
      (∀ devnode st_rdev fdv axesQ buttonsQ nameQ v, v ≠ 0 →
        open_joystick MAX H devnode st_rdev (some fdv) (.ok v) axesQ buttonsQ
          nameQ true s = ⟨false, s, true, some ENOMEM⟩)) := by
  set d := zeroJoystick H with hd
  refine ⟨?_, ?_, ?_⟩
  · rintro ⟨i, hi, hfree⟩
    have hi' : i < (s.joysticks.take s.num_joysticks).length := by
      simp only [List.length_take]; omega
    have hfree' : ((s.joysticks.take s.num_joysticks).getD i d).fd = -1 := by
      rw [getD_take d hi]; exact hfree
    obtain ⟨k, hk⟩ := findFreeIdx_isSome d _ i hi' hfree'
    obtain ⟨hk1, hk2, hk3⟩ := findFreeIdx_some d _ k hk
    refine ⟨k, ?_, ?_, ?_, ?_⟩
    · simp [get_free_joystick, hk]
    · simp only [List.length_take] at hk1; omega
    · have hkn : k < s.num_joysticks := by
        simp only [List.length_take] at hk1; omega
      rw [← getD_take d hkn]; exact hk2
    · intro j hj
      have hjn : j < s.num_joysticks := by
        simp only [List.length_take] at hk1; omega
      rw [← getD_take d hjn]; exact hk3 j hj
  · intro hall hlt
    have hnone : findFreeIdx (s.joysticks.take s.num_joysticks) = none := by
      cases hx : findFreeIdx (s.joysticks.take s.num_joysticks) with
      | none => rfl
      | some k =>
          obtain ⟨hk1, hk2, _⟩ := findFreeIdx_some d _ k hx
          simp only [List.length_take] at hk1
          have hkn : k < s.num_joysticks := by omega
          rw [getD_take d hkn] at hk2
          exact absurd hk2 (hall k hkn)
    refine ⟨?_, ?_, ?_⟩
    · simp [get_free_joystick, hnone, hlt]
    · simp [get_free_joystick, hnone, hlt]
    · have hj : (get_free_joystick MAX H s).2.joysticks =
          s.joysticks.set s.num_joysticks
            { s.joysticks.getD s.num_joysticks d with fd := -1 } := by
        simp [get_free_joystick, hnone, hlt]
      rw [hj, getD_set_eq s.joysticks s.num_joysticks _ _ (by omega)]
  · intro hall heq
    have hnone : findFreeIdx (s.joysticks.take s.num_joysticks) = none := by
      cases hx : findFreeIdx (s.joysticks.take s.num_joysticks) with
      | none => rfl
      | some k =>
          obtain ⟨hk1, hk2, _⟩ := findFreeIdx_some d _ k hx
          simp only [List.length_take] at hk1
          have hkn : k < s.num_joysticks := by omega
          rw [getD_take d hkn] at hk2
          exact absurd hk2 (hall k hkn)
    have hfail : get_free_joystick MAX H s = (none, s) := by
      simp only [get_free_joystick]
      rw [hnone]
      simp [heq]
    refine ⟨hfail, ?_, ?_⟩
    · intro devnode st_rdev fdv axesQ buttonsQ nameQ probe
      simp [open_joystick, openPopulate, hfail]
    · intro devnode st_rdev fdv axesQ buttonsQ nameQ v hv
      simp [open_joystick, openPopulate, hfail, hv]

/-- Witness for C7 at a concrete full registry (capacity 2, both slots
active): allocation fails and `open_joystick` reports `ENOMEM`. -/
theorem get_free_joystick_correct_witness :
    ((initState 2 2).joysticks.length = 2 ∧
      (initState 2 2).num_joysticks ≤ 2) ∧
    ((∃ i, i < (initState 2 2).num_joysticks ∧
        ((initState 2 2).joysticks.getD i (zeroJoystick 2)).fd = -1) →
      ∃ k, get_free_joystick 2 2 (initState 2 2) = (some k, initState 2 2) ∧
        k < (initState 2 2).num_joysticks ∧
        ((initState 2 2).joysticks.getD k (zeroJoystick 2)).fd = -1 ∧
        ∀ j, j < k →
          ((initState 2 2).joysticks.getD j (zeroJoystick 2)).fd ≠ -1) :=
  ⟨⟨by decide, by decide⟩,
    (get_free_joystick_correct 2 2 (initState 2 2) (by decide) (by decide)).1⟩

/-- Claim C2: in strict mode, a *failed* version probe closes the descriptor
and returns `false` with the probe's errno preserved and the registry
untouched; but on a probe that *succeeds with version 0* the source returns
`false` (errno `EINVAL`, registry untouched) **without closing the
descriptor** — the handle is leaked, contradicting the claim. -/
theorem open_joystick_version0_leaks_fd :
    (open_joystick 4 2 "js0" 10 (some 5) (.error 19) none none none true
        (initState 4 2)) =
      ⟨false, initState 4 2, true, some 19⟩ ∧
    (open_joystick 4 2 "js0" 10 (some 5) (.ok 0) none none none true
        (initState 4 2)) =
      ⟨false, initState 4 2, false, some EINVAL⟩ := by
  constructor <;> rfl

/-- Claim C3: opening a device into a reused freed slot does *not* zero that
slot's `key_history` (line 150 memsets `joysticks[num_joysticks]` instead of
the populated slot): with slot 0 free holding stale history `[7,7]` and
`num_joysticks = 2`, a successful open populates slot 0 but leaves its
history `[7,7]`, and instead clears the history of the unrelated slot 2. -/
theorem open_joystick_memset_wrong_slot :
    ((open_joystick 3 2 "c" 12 (some 7) (.ok 1) none none none true
        staleHistoryState).ret = true) ∧
    ((open_joystick 3 2 "c" 12 (some 7) (.ok 1) none none none true
        staleHistoryState).state.joysticks.getD 0 (zeroJoystick 2)).fd = 7 ∧
    ((open_joystick 3 2 "c" 12 (some 7) (.ok 1) none none none true
        staleHistoryState).state.joysticks.getD 0 (zeroJoystick 2)).key_history
      = [7, 7] ∧
    ((open_joystick 3 2 "c" 12 (some 7) (.ok 1) none none none true
        staleHistoryState).state.joysticks.getD 2 (zeroJoystick 2)).key_history
      = [0, 0] ∧
    (staleHistoryState.joysticks.getD 2 (zeroJoystick 2)).key_history
      = [9, 9] := by
  refine ⟨?_, ?_, ?_, ?_, ?_⟩ <;> decide

theorem getD_mem {α : Type} (l : List α) (i : Nat) (d : α)
    (h : i < l.length) : l.getD i d ∈ l := by
  induction l generalizing i with
  | nil => simp at h
  | cons a t ih =>
      cases i with
      | zero => simp
      | succ k =>
          simp only [List.getD_cons_succ]
          exact List.mem_cons_of_mem a (ih k (by simpa using h))

/-- Claim C8: a hotplug add for a device whose identity (`st_rdev`) equals
that of an already-active slot is a no-op on the registry, and
`open_joystick` is never invoked. -/
theorem add_udev_device_duplicate_noop (MAX H : Nat) (s : InputState)
    (devnode : String) (rdev : Nat) (openRes : Option Nat)
    (probe : Except Nat Int) (axesQ buttonsQ : Option Int)
    (nameQ : Option String)
    (hdn : devnode ≠ "")
    (hlen : s.num_joysticks ≤ s.joysticks.length)
    (hdup : ∃ i, i < s.num_joysticks ∧
      (s.joysticks.getD i (zeroJoystick H)).fd ≠ -1 ∧
      (s.joysticks.getD i (zeroJoystick H)).dev = rdev) :
    add_udev_device MAX H (some devnode) (some rdev) openRes probe axesQ
      buttonsQ nameQ s = (s, false) := by
  obtain ⟨i, hi, hfd, hdev⟩ := hdup
  have hdupb : hasDuplicateDev s rdev = true := by
    rw [hasDuplicateDev, List.any_eq_true]
    refine ⟨(s.joysticks.take s.num_joysticks).getD i (zeroJoystick H),
      getD_mem _ i _ (by simp only [List.length_take]; omega), ?_⟩
    rw [getD_take (zeroJoystick H) hi]
    simp only [Bool.and_eq_true, decide_eq_true_eq, beq_iff_eq]
    exact ⟨hfd, hdev⟩
  simp [add_udev_device, hdn, hdupb]

/-- Witness for C8: adding device identity 11 to a registry whose slot 1 is
already bound to identity 11 leaves the registry untouched. -/
theorem add_udev_device_duplicate_noop_witness :
    add_udev_device 3 2 (some "b2") (some 11) (some 9) (.ok 1) none none none
      staleHistoryState = (staleHistoryState, false) :=
  add_udev_device_duplicate_noop 3 2 staleHistoryState "b2" 11 (some 9)
    (.ok 1) none none none (by decide) (by decide)
    ⟨1, by decide, by decide, by decide⟩

theorem seqLoop_iff (hist : List Nat) (L : Nat) :
    ∀ (rest : List Nat) (si : Nat),
      (seqLoop hist L rest si = true ↔
        ∀ k, ∀ (hk : k < rest.length),
          hist.getD (L - 1 - (si + k)) 0 = rest.get ⟨k, hk⟩) := by
  intro rest
  induction rest with
  | nil => intro si; simp [seqLoop]
  | cons x t ih =>
      intro si
      simp only [seqLoop]
      by_cases he : hist.getD (L - 1 - si) 0 = x
      · rw [if_pos he, ih (si + 1)]
        constructor
        · intro hall k hk
          cases k with
          | zero => simpa using he
          | succ m =>
              have hm := hall m (by simpa using hk)
              simp only [List.get_cons_succ]
              convert hm using 3
              omega
        · intro hall k hk
          have hm := hall (k + 1) (by simpa using hk)
          simp only [List.get_cons_succ] at hm
          convert hm using 3
          omega
      · rw [if_neg he]
        constructor
        · intro hfalse; cases hfalse
        · intro hall
          have h0 := hall 0 (by simp)
          simp only [List.get_cons_zero, Nat.add_zero] at h0
          exact absurd h0 he

/-- Claim C5: `joystick_is_key_seq` returns true iff
`key_history[L-1-k] == seq[k]` for all `k < L` (sequence oldest-first,
history newest-first), returns false whenever `L` exceeds the history
capacity, and on a history whose presses occurred chronologically A, B,
LEFT, the sequence `[A,B,LEFT]` matches while `[B,A,LEFT]` does not. -/
theorem joystick_is_key_seq_correct (H : Nat) (j : Joystick)
    (hlen : j.key_history.length = H) (seq : List Nat) :
    (joystick_is_key_seq H (some j) seq = true ↔
      (seq.length ≤ H ∧
        ∀ k, ∀ (hk : k < seq.length),
          j.key_history.getD (seq.length - 1 - k) 0 = seq.get ⟨k, hk⟩)) ∧
    (seq.length > H → joystick_is_key_seq H (some j) seq = false) ∧
    joystick_is_key_seq 10 (some exampleHistoryJoystick)
      [KEYPAD_A, KEYPAD_B, KEYPAD_LEFT] = true ∧
    joystick_is_key_seq 10 (some exampleHistoryJoystick)
      [KEYPAD_B, KEYPAD_A, KEYPAD_LEFT] = false := by
  refine ⟨?_, ?_, by decide, by decide⟩
  · by_cases hgt : seq.length > H
    · simp only [joystick_is_key_seq, if_pos hgt]
      constructor
      · intro hfalse; cases hfalse
      · rintro ⟨hle, _⟩; omega
    · simp only [joystick_is_key_seq, if_neg hgt]
      rw [seqLoop_iff j.key_history seq.length seq 0]
      constructor
      · intro hall
        refine ⟨by omega, fun k hk => ?_⟩
        have := hall k hk
        simpa using this
      · rintro ⟨_, hall⟩ k hk
        simpa using hall k hk
  · intro hgt
    simp [joystick_is_key_seq, hgt]

theorem openPopulate_num (MAX H : Nat) (dn : String) (rdev fdv : Nat)
    (a b : Int) (nm : String) (s : InputState) :
    (openPopulate MAX H dn rdev fdv a b nm s).state.num_joysticks
        = s.num_joysticks ∨
    (s.num_joysticks < MAX ∧
      (openPopulate MAX H dn rdev fdv a b nm s).state.num_joysticks
        = s.num_joysticks + 1 ∧
      (get_free_joystick MAX H s).2.num_joysticks = s.num_joysticks + 1) := by
  have hgf : ∀ r : Option Nat × InputState, get_free_joystick MAX H s = r →
      (openPopulate MAX H dn rdev fdv a b nm s).state.num_joysticks
        = r.2.num_joysticks := by
    intro r hr
    unfold openPopulate
    rw [hr]
    rcases r with ⟨idx?, s1⟩
    cases idx? with
    | none => rfl
    | some idx => rfl
  cases hf : findFreeIdx (s.joysticks.take s.num_joysticks) with
  | some i =>
      have hr : get_free_joystick MAX H s = (some i, s) := by
        simp [get_free_joystick, hf]
      left
      rw [hgf _ hr]
  | none =>
      by_cases hlt : s.num_joysticks < MAX
      · have hr : get_free_joystick MAX H s =
            (some s.num_joysticks,
              { s with
                joysticks := s.joysticks.set s.num_joysticks
                  { s.joysticks.getD s.num_joysticks (zeroJoystick H) with
                    fd := -1 }
                num_joysticks := s.num_joysticks + 1 }) := by
          simp [get_free_joystick, hf, hlt]
        right
        refine ⟨hlt, ?_, ?_⟩
        · rw [hgf _ hr]
        · rw [hr]
      · have hr : get_free_joystick MAX H s = (none, s) := by
          simp only [get_free_joystick]
          rw [hf]
          simp [hlt]
        left
        rw [hgf _ hr]

theorem open_joystick_num (MAX H : Nat) (dn : String) (rdev : Nat)
    (openRes : Option Nat) (probe : Except Nat Int)
    (axesQ buttonsQ : Option Int) (nameQ : Option String) (chk : Bool)
    (s : InputState) :
    (open_joystick MAX H dn rdev openRes probe axesQ buttonsQ nameQ chk
        s).state.num_joysticks = s.num_joysticks ∨
    (s.num_joysticks < MAX ∧
      (open_joystick MAX H dn rdev openRes probe axesQ buttonsQ nameQ chk
        s).state.num_joysticks = s.num_joysticks + 1 ∧
      (get_free_joystick MAX H s).2.num_joysticks = s.num_joysticks + 1) := by
  unfold open_joystick
  cases openRes with
  | none => left; rfl
  | some fdv =>
      cases chk with
      | false => exact openPopulate_num MAX H dn rdev fdv _ _ _ s
      | true =>
          cases probe with
          | error e => left; rfl
          | ok v =>
              by_cases hv : v = 0
              · left; simp [hv]
              · simpa [hv] using openPopulate_num MAX H dn rdev fdv
                  (axesQ.getD 0) (buttonsQ.getD 0) (nameQ.getD "") s

theorem add_udev_device_num (MAX H : Nat) (devnode : Option String)
    (statRes openRes : Option Nat) (probe : Except Nat Int)
    (axesQ buttonsQ : Option Int) (nameQ : Option String) (s : InputState) :
    (add_udev_device MAX H devnode statRes openRes probe axesQ buttonsQ nameQ
        s).1.num_joysticks = s.num_joysticks ∨
    (s.num_joysticks < MAX ∧
      (add_udev_device MAX H devnode statRes openRes probe axesQ buttonsQ
        nameQ s).1.num_joysticks = s.num_joysticks + 1 ∧
      (get_free_joystick MAX H s).2.num_joysticks = s.num_joysticks + 1) := by
  unfold add_udev_device
  cases devnode with
  | none => left; rfl
  | some dn =>
      by_cases hd : dn = ""
      · left; simp [hd]
      · cases statRes with
        | none => left; simp [hd]
        | some rdev =>
            by_cases hdup : hasDuplicateDev s rdev
            · left; simp [hd, hdup]
            · simpa [hd, hdup] using open_joystick_num MAX H dn rdev openRes
                probe axesQ buttonsQ nameQ true s

theorem remove_udev_device_num (devnode : Option String) (s : InputState) :
    (remove_udev_device devnode s).num_joysticks = s.num_joysticks := by
  unfold remove_udev_device
  cases devnode with
  | none => rfl
  | some dn => by_cases hd : dn = "" <;> simp [hd]

theorem readStep_num (H i : Nat) (ev : JsEvent) (s : InputState) :
    (readStep H i ev s).num_joysticks = s.num_joysticks := by
  unfold readStep
  split <;> rfl

theorem step_num_cases {MAX H : Nat} {s s' : InputState}
    (h : Step MAX H s s') :
    s'.num_joysticks = s.num_joysticks ∨
    (s.num_joysticks < MAX ∧ s'.num_joysticks = s.num_joysticks + 1) ∨
    s'.num_joysticks = 0 := by
  cases h with
  | openJs dn rdev openRes probe aQ bQ nQ chk s =>
      rcases open_joystick_num MAX H dn rdev openRes probe aQ bQ nQ chk s
        with h | h
      · exact Or.inl h
      · exact Or.inr (Or.inl ⟨h.1, h.2.1⟩)
  | add dn statRes openRes probe aQ bQ nQ s =>
      rcases add_udev_device_num MAX H dn statRes openRes probe aQ bQ nQ s
        with h | h
      · exact Or.inl h
      · exact Or.inr (Or.inl ⟨h.1, h.2.1⟩)
  | remove dn s => exact Or.inl (remove_udev_device_num dn s)
  | reset s => exact Or.inr (Or.inr rfl)
  | hotplugInit mo s => exact Or.inl rfl
  | read i ev s => exact Or.inl (readStep_num H i ev s)

theorem step_growth_only_get_free {MAX H : Nat} {s s' : InputState}
    (h : Step MAX H s s') (hlt : s.num_joysticks < s'.num_joysticks) :
    s.num_joysticks < MAX ∧ s'.num_joysticks = s.num_joysticks + 1 ∧
    s'.num_joysticks = (get_free_joystick MAX H s).2.num_joysticks := by
  cases h with
  | openJs dn rdev openRes probe aQ bQ nQ chk s =>
      rcases open_joystick_num MAX H dn rdev openRes probe aQ bQ nQ chk s
        with h | ⟨h1, h2, h3⟩
      · omega
      · exact ⟨h1, h2, by rw [h2, h3]⟩
  | add dn statRes openRes probe aQ bQ nQ s =>
      rcases add_udev_device_num MAX H dn statRes openRes probe aQ bQ nQ s
        with h | ⟨h1, h2, h3⟩
      · omega
      · exact ⟨h1, h2, by rw [h2, h3]⟩
  | remove dn s =>
      rw [remove_udev_device_num dn s] at hlt
      omega
  | reset s =>
      have h0 : (input_reset s).num_joysticks = 0 := rfl
      omega
  | hotplugInit mo s =>
      have h0 : (init_udev_hotplug_state mo s).num_joysticks
          = s.num_joysticks := rfl
      omega
  | read i ev s =>
      rw [readStep_num H i ev s] at hlt
      omega

theorem step_decrease_only_reset {MAX H : Nat} {s s' : InputState}
    (h : Step MAX H s s') (hlt : s'.num_joysticks < s.num_joysticks) :
    s' = input_reset s := by
  cases h with
  | reset s => rfl
  | openJs dn rdev openRes probe aQ bQ nQ chk s =>
      exfalso
      rcases open_joystick_num MAX H dn rdev openRes probe aQ bQ nQ chk s
        with h | ⟨h1, h2, h3⟩ <;> omega
  | add dn statRes openRes probe aQ bQ nQ s =>
      exfalso
      rcases add_udev_device_num MAX H dn statRes openRes probe aQ bQ nQ s
        with h | ⟨h1, h2, h3⟩ <;> omega
  | remove dn s =>
      exfalso
      rw [remove_udev_device_num dn s] at hlt
      omega
  | hotplugInit mo s =>
      exfalso
      have h0 : (init_udev_hotplug_state mo s).num_joysticks
          = s.num_joysticks := rfl
      omega
  | read i ev s =>
      exfalso
      rw [readStep_num H i ev s] at hlt
      omega

theorem reachable_num_le {MAX H : Nat} {s : InputState}
    (hr : Reachable MAX H s) : s.num_joysticks ≤ MAX := by
  induction hr with
  | init => simp [initState]
  | step hprev hstep ih =>
      rcases step_num_cases hstep with h | ⟨h1, h2⟩ | h <;> omega

theorem countLoop_eq_filter : ∀ (n : Nat) (l : List Joystick),
    countLoop n l = ((l.take n).filter (fun j => j.fd ≠ -1)).length := by
  intro n l
  induction l generalizing n with
  | nil => cases n <;> rfl
  | cons j t ih =>
      cases n with
      | zero => rfl
      | succ m =>
          simp only [countLoop, List.take_succ_cons, List.filter_cons]
          by_cases h : j.fd = -1
          · simp [h, ih m]
          · simp [h, ih m, Nat.add_comm]

theorem countLoop_le : ∀ (n : Nat) (l : List Joystick), countLoop n l ≤ n := by
  intro n l
  induction l generalizing n with
  | nil => cases n <;> simp [countLoop]
  | cons j t ih =>
      cases n with
      | zero => simp [countLoop]
      | succ m =>
          have := ih m

          simp only [countLoop]
          by_cases h : j.fd = -1 <;> simp [h] <;> omega

/-- Claim C10: for every reachable state, `num_joysticks ≤ MAX_JOYSTICKS`.
Every step preserves the count, grows it by one when strictly below
capacity, or zeroes it; moreover the count grows *only inside
`get_free_joystick`* and only when strictly below `MAX_JOYSTICKS` — any
step that increases it does so by exactly one, to precisely the count
produced by `get_free_joystick`'s grow branch, while the non-allocating
operations (`remove_udev_device`, `read_joystick`, `init_udev_hotplug`)
never change it — and *only `input_reset` decreases it*: any step that
decreases the count is an `input_reset` (which zeroes it).  Finally
`count_joysticks` returns exactly the number of slots below
`num_joysticks` holding a valid descriptor, hence at most
`num_joysticks`. -/
theorem counting_invariants (MAX H : Nat) (s : InputState)
    (hr : Reachable MAX H s) :
    s.num_joysticks ≤ MAX ∧
    (∀ s', Step MAX H s s' →
      s'.num_joysticks = s.num_joysticks ∨
      (s.num_joysticks < MAX ∧ s'.num_joysticks = s.num_joysticks + 1) ∨
      s'.num_joysticks = 0) ∧
    (∀ s', Step MAX H s s' → s.num_joysticks < s'.num_joysticks →
      s.num_joysticks < MAX ∧ s'.num_joysticks = s.num_joysticks + 1 ∧
      s'.num_joysticks = (get_free_joystick MAX H s).2.num_joysticks) ∧
    (∀ s', Step MAX H s s' → s'.num_joysticks < s.num_joysticks →
      s' = input_reset s) ∧
    (∀ devnode, (remove_udev_device devnode s).num_joysticks
      = s.num_joysticks) ∧
    (∀ i ev, (readStep H i ev s).num_joysticks = s.num_joysticks) ∧
    (∀ mo, (init_udev_hotplug_state mo s).num_joysticks
      = s.num_joysticks) ∧
    (input_reset s).num_joysticks = 0 ∧
    count_joysticks s =
      ((s.joysticks.take s.num_joysticks).filter
        (fun j => j.fd ≠ -1)).length ∧
    count_joysticks s ≤ s.num_joysticks :=
  ⟨reachable_num_le hr, fun _ hs => step_num_cases hs,
    fun _ hs hlt => step_growth_only_get_free hs hlt,
    fun _ hs hlt => step_decrease_only_reset hs hlt,
    fun devnode => remove_udev_device_num devnode s,
    fun i ev => readStep_num H i ev s,
    fun _ => rfl, rfl,
    countLoop_eq_filter s.num_joysticks s.joysticks,
    countLoop_le s.num_joysticks s.joysticks⟩

/-- Witness for C10 at the initial state with capacity 2. -/
theorem counting_invariants_witness :
    (initState 2 2).num_joysticks ≤ 2 ∧
    (input_reset (initState 2 2)).num_joysticks = 0 ∧
    count_joysticks (initState 2 2) ≤ (initState 2 2).num_joysticks :=
  have h := counting_invariants 2 2 (initState 2 2) Reachable.init
  ⟨h.1, h.2.2.2.2.2.2.2.1, h.2.2.2.2.2.2.2.2.2⟩

theorem land_pow_ne_zero (ks n : Nat) :
    ks &&& 2 ^ n ≠ 0 ↔ ks.testBit n = true := by
  have h : ks &&& 2 ^ n = (ks.testBit n).toNat * 2 ^ n :=
    Nat.and_two_pow ks n
  rw [h]
  cases hb : ks.testBit n
  · simp
  · have h2 : 0 < 2 ^ n := Nat.two_pow_pos n
    constructor
    · intro _; rfl
    · intro _
      simp only [Bool.toNat_true, one_mul]
      omega

theorem testBit_set_clear (ks a b : Nat) (hab : a ≠ b) :
    (Nat.ldiff (ks ||| 2 ^ a) (2 ^ b)).testBit a = true ∧
    (Nat.ldiff (ks ||| 2 ^ a) (2 ^ b)).testBit b = false ∧
    ∀ c, c ≠ a → c ≠ b →
      (Nat.ldiff (ks ||| 2 ^ a) (2 ^ b)).testBit c = ks.testBit c := by
  refine ⟨?_, ?_, ?_⟩
  · rw [Nat.testBit_ldiff, Nat.testBit_lor, Nat.testBit_two_pow_self,
      Nat.testBit_two_pow_of_ne (Ne.symm hab)]
    simp
  · rw [Nat.testBit_ldiff, Nat.testBit_two_pow_self]
    simp
  · intro c hca hcb
    rw [Nat.testBit_ldiff, Nat.testBit_lor,
      Nat.testBit_two_pow_of_ne (Ne.symm hca),
      Nat.testBit_two_pow_of_ne (Ne.symm hcb)]
    simp

theorem testBit_clear_set (ks a b : Nat) (hab : a ≠ b) :
    (Nat.ldiff ks (2 ^ a) ||| 2 ^ b).testBit b = true ∧
    (Nat.ldiff ks (2 ^ a) ||| 2 ^ b).testBit a = false ∧
    ∀ c, c ≠ a → c ≠ b →
      (Nat.ldiff ks (2 ^ a) ||| 2 ^ b).testBit c = ks.testBit c := by
  refine ⟨?_, ?_, ?_⟩
  · rw [Nat.testBit_lor, Nat.testBit_two_pow_self]
    simp
  · rw [Nat.testBit_lor, Nat.testBit_ldiff, Nat.testBit_two_pow_self,
      Nat.testBit_two_pow_of_ne (Ne.symm hab)]
    simp
  · intro c hca hcb
    rw [Nat.testBit_lor, Nat.testBit_ldiff,
      Nat.testBit_two_pow_of_ne (Ne.symm hca),
      Nat.testBit_two_pow_of_ne (Ne.symm hcb)]
    simp

theorem testBit_clear_clear (ks a b : Nat) :
    (Nat.ldiff (Nat.ldiff ks (2 ^ a)) (2 ^ b)).testBit a = false ∧
    (Nat.ldiff (Nat.ldiff ks (2 ^ a)) (2 ^ b)).testBit b = false ∧
    ∀ c, c ≠ a → c ≠ b →
      (Nat.ldiff (Nat.ldiff ks (2 ^ a)) (2 ^ b)).testBit c = ks.testBit c := by
  refine ⟨?_, ?_, ?_⟩
  · rw [Nat.testBit_ldiff, Nat.testBit_ldiff, Nat.testBit_two_pow_self]
    simp
  · rw [Nat.testBit_ldiff, Nat.testBit_two_pow_self]
    simp
  · intro c hca hcb
    rw [Nat.testBit_ldiff, Nat.testBit_ldiff,
      Nat.testBit_two_pow_of_ne (Ne.symm hca),
      Nat.testBit_two_pow_of_ne (Ne.symm hcb)]
    simp

theorem landLeft (ks : Nat) :
    ks &&& KEYPAD_LEFT ≠ 0 ↔ ks.testBit 2 = true := land_pow_ne_zero ks 2

theorem landRight (ks : Nat) :
    ks &&& KEYPAD_RIGHT ≠ 0 ↔ ks.testBit 3 = true := land_pow_ne_zero ks 3

theorem landUp (ks : Nat) :
    ks &&& KEYPAD_UP ≠ 0 ↔ ks.testBit 0 = true := land_pow_ne_zero ks 0

theorem landDown (ks : Nat) :
    ks &&& KEYPAD_DOWN ≠ 0 ↔ ks.testBit 1 = true := land_pow_ne_zero ks 1

theorem bits_left_press (ks : Nat) :
    (Nat.ldiff (ks ||| KEYPAD_LEFT) KEYPAD_RIGHT).testBit 2 = true ∧
    (Nat.ldiff (ks ||| KEYPAD_LEFT) KEYPAD_RIGHT).testBit 3 = false ∧
    ∀ c, c ≠ 2 → c ≠ 3 →
      (Nat.ldiff (ks ||| KEYPAD_LEFT) KEYPAD_RIGHT).testBit c = ks.testBit c :=
  testBit_set_clear ks 2 3 (by omega)

theorem bits_right_press (ks : Nat) :
    (Nat.ldiff ks KEYPAD_LEFT ||| KEYPAD_RIGHT).testBit 3 = true ∧
    (Nat.ldiff ks KEYPAD_LEFT ||| KEYPAD_RIGHT).testBit 2 = false ∧
    ∀ c, c ≠ 2 → c ≠ 3 →
      (Nat.ldiff ks KEYPAD_LEFT ||| KEYPAD_RIGHT).testBit c = ks.testBit c :=
  testBit_clear_set ks 2 3 (by omega)

theorem bits_lr_dead (ks : Nat) :
    (Nat.ldiff (Nat.ldiff ks KEYPAD_LEFT) KEYPAD_RIGHT).testBit 2 = false ∧
    (Nat.ldiff (Nat.ldiff ks KEYPAD_LEFT) KEYPAD_RIGHT).testBit 3 = false ∧
    ∀ c, c ≠ 2 → c ≠ 3 →
      (Nat.ldiff (Nat.ldiff ks KEYPAD_LEFT) KEYPAD_RIGHT).testBit c
        = ks.testBit c :=
  testBit_clear_clear ks 2 3

theorem bits_up_press (ks : Nat) :
    (Nat.ldiff (ks ||| KEYPAD_UP) KEYPAD_DOWN).testBit 0 = true ∧
    (Nat.ldiff (ks ||| KEYPAD_UP) KEYPAD_DOWN).testBit 1 = false ∧
    ∀ c, c ≠ 0 → c ≠ 1 →
      (Nat.ldiff (ks ||| KEYPAD_UP) KEYPAD_DOWN).testBit c = ks.testBit c :=
  testBit_set_clear ks 0 1 (by omega)

theorem bits_down_press (ks : Nat) :
    (Nat.ldiff ks KEYPAD_UP ||| KEYPAD_DOWN).testBit 1 = true ∧
    (Nat.ldiff ks KEYPAD_UP ||| KEYPAD_DOWN).testBit 0 = false ∧
    ∀ c, c ≠ 0 → c ≠ 1 →
      (Nat.ldiff ks KEYPAD_UP ||| KEYPAD_DOWN).testBit c = ks.testBit c :=
  testBit_clear_set ks 0 1 (by omega)

theorem bits_ud_dead (ks : Nat) :
    (Nat.ldiff (Nat.ldiff ks KEYPAD_UP) KEYPAD_DOWN).testBit 0 = false ∧
    (Nat.ldiff (Nat.ldiff ks KEYPAD_UP) KEYPAD_DOWN).testBit 1 = false ∧
    ∀ c, c ≠ 0 → c ≠ 1 →
      (Nat.ldiff (Nat.ldiff ks KEYPAD_UP) KEYPAD_DOWN).testBit c
        = ks.testBit c :=
  testBit_clear_clear ks 0 1

/-- The decoding `switch` never touches the history buffer (the history
push at lines 461-464 happens after it). -/
theorem decodeEvent_key_history (ev : JsEvent) (j : Joystick) :
    (decodeEvent ev j).key_history = j.key_history := by
  unfold decodeEvent
  repeat' split
  all_goals rfl

/-- Claim C4: axis-0 dead-zone decoding — value ≤ −1024 sets LEFT (bit 2),
clears RIGHT (bit 3), records a LEFT press; value ≥ +1024 symmetrically for
RIGHT; a dead-zone value records a release of whichever of LEFT/RIGHT was
held (LEFT checked first, else NONE) and clears both; axis 1 is symmetric
with UP (bit 0) / DOWN (bit 1); all other `key_state` bits are untouched,
and decoding alone leaves the history buffer unchanged. -/
theorem decodeEvent_axis_hysteresis (ev : JsEvent) (j : Joystick)
    (htype : ev.type &&& 127 = JS_EVENT_AXIS) :
    (ev.number = 0 → ev.value ≤ -1024 →
      (decodeEvent ev j).last_key_idx = KEYPAD_LEFT ∧
      (decodeEvent ev j).last_key_val = true ∧
      (decodeEvent ev j).key_state.testBit 2 = true ∧
      (decodeEvent ev j).key_state.testBit 3 = false ∧
      ∀ c, c ≠ 2 → c ≠ 3 →
        (decodeEvent ev j).key_state.testBit c = j.key_state.testBit c) ∧
    (ev.number = 0 → ev.value ≥ 1024 →
      (decodeEvent ev j).last_key_idx = KEYPAD_RIGHT ∧
      (decodeEvent ev j).last_key_val = true ∧
      (decodeEvent ev j).key_state.testBit 3 = true ∧
      (decodeEvent ev j).key_state.testBit 2 = false ∧
      ∀ c, c ≠ 2 → c ≠ 3 →
        (decodeEvent ev j).key_state.testBit c = j.key_state.testBit c) ∧
    (ev.number = 0 → -1024 < ev.value → ev.value < 1024 →
      (decodeEvent ev j).last_key_idx =
        (if j.key_state.testBit 2 then KEYPAD_LEFT
         else if j.key_state.testBit 3 then KEYPAD_RIGHT
         else KEYPAD_NONE) ∧
      (decodeEvent ev j).last_key_val = false ∧
      (decodeEvent ev j).key_state.testBit 2 = false ∧
      (decodeEvent ev j).key_state.testBit 3 = false ∧
      ∀ c, c ≠ 2 → c ≠ 3 →
        (decodeEvent ev j).key_state.testBit c = j.key_state.testBit c) ∧
    (ev.number = 1 → ev.value ≤ -1024 →
      (decodeEvent ev j).last_key_idx = KEYPAD_UP ∧
      (decodeEvent ev j).last_key_val = true ∧
      (decodeEvent ev j).key_state.testBit 0 = true ∧
      (decodeEvent ev j).key_state.testBit 1 = false ∧
      ∀ c, c ≠ 0 → c ≠ 1 →
        (decodeEvent ev j).key_state.testBit c = j.key_state.testBit c) ∧
    (ev.number = 1 → ev.value ≥ 1024 →
      (decodeEvent ev j).last_key_idx = KEYPAD_DOWN ∧
      (decodeEvent ev j).last_key_val = true ∧
      (decodeEvent ev j).key_state.testBit 1 = true ∧
      (decodeEvent ev j).key_state.testBit 0 = false ∧
      ∀ c, c ≠ 0 → c ≠ 1 →
        (decodeEvent ev j).key_state.testBit c = j.key_state.testBit c) ∧
    (ev.number = 1 → -1024 < ev.value → ev.value < 1024 →
      (decodeEvent ev j).last_key_idx =
        (if j.key_state.testBit 0 then KEYPAD_UP
         else if j.key_state.testBit 1 then KEYPAD_DOWN
         else KEYPAD_NONE) ∧
      (decodeEvent ev j).last_key_val = false ∧
      (decodeEvent ev j).key_state.testBit 0 = false ∧
      (decodeEvent ev j).key_state.testBit 1 = false ∧
      ∀ c, c ≠ 0 → c ≠ 1 →
        (decodeEvent ev j).key_state.testBit c = j.key_state.testBit c) ∧
    ((decodeEvent ev j).key_history = j.key_history) := by
  refine ⟨?_, ?_, ?_, ?_, ?_, ?_, decodeEvent_key_history ev j⟩
  · intro hnum hv
    have hd : decodeEvent ev j = { j with
        last_key_idx := KEYPAD_LEFT, last_key_val := true
        key_state := Nat.ldiff (j.key_state ||| KEYPAD_LEFT) KEYPAD_RIGHT } := by
      simp only [decodeEvent, htype, hnum]
      simp [hv, JS_EVENT_AXIS, JS_EVENT_BUTTON]
    obtain ⟨t1, t2, t3⟩ := bits_left_press j.key_state
    rw [hd]
    exact ⟨rfl, rfl, t1, t2, t3⟩
  · intro hnum hv
    have hd : decodeEvent ev j = { j with
        last_key_idx := KEYPAD_RIGHT, last_key_val := true
        key_state := Nat.ldiff j.key_state KEYPAD_LEFT ||| KEYPAD_RIGHT } := by
      simp only [decodeEvent, htype, hnum]
      simp [show ¬(ev.value ≤ -1024) by omega, hv, JS_EVENT_AXIS,
        JS_EVENT_BUTTON]
    obtain ⟨t1, t2, t3⟩ := bits_right_press j.key_state
    rw [hd]
    exact ⟨rfl, rfl, t1, t2, t3⟩
  · intro hnum hlo hhi
    have hd : decodeEvent ev j = { j with
        last_key_idx :=
          if j.key_state &&& KEYPAD_LEFT ≠ 0 then KEYPAD_LEFT
          else if j.key_state &&& KEYPAD_RIGHT ≠ 0 then KEYPAD_RIGHT
          else KEYPAD_NONE
        last_key_val := false
        key_state := Nat.ldiff (Nat.ldiff j.key_state KEYPAD_LEFT)
          KEYPAD_RIGHT } := by
      simp only [decodeEvent, htype, hnum]
      simp [show ¬(ev.value ≤ -1024) by omega,
        show ¬(ev.value ≥ 1024) by omega, JS_EVENT_AXIS, JS_EVENT_BUTTON]
    obtain ⟨t1, t2, t3⟩ := bits_lr_dead j.key_state
    rw [hd]
    refine ⟨?_, rfl, t1, t2, t3⟩
    show (if j.key_state &&& KEYPAD_LEFT ≠ 0 then KEYPAD_LEFT
          else if j.key_state &&& KEYPAD_RIGHT ≠ 0 then KEYPAD_RIGHT
          else KEYPAD_NONE) = _
    simp only [landLeft, landRight]
  · intro hnum hv
    have hd : decodeEvent ev j = { j with
        last_key_idx := KEYPAD_UP, last_key_val := true
        key_state := Nat.ldiff (j.key_state ||| KEYPAD_UP) KEYPAD_DOWN } := by
      simp only [decodeEvent, htype, hnum]
      simp [hv, JS_EVENT_AXIS, JS_EVENT_BUTTON]
    obtain ⟨t1, t2, t3⟩ := bits_up_press j.key_state
    rw [hd]
    exact ⟨rfl, rfl, t1, t2, t3⟩
  · intro hnum hv
    have hd : decodeEvent ev j = { j with
        last_key_idx := KEYPAD_DOWN, last_key_val := true
        key_state := Nat.ldiff j.key_state KEYPAD_UP ||| KEYPAD_DOWN } := by
      simp only [decodeEvent, htype, hnum]
      simp [show ¬(ev.value ≤ -1024) by omega, hv, JS_EVENT_AXIS,
        JS_EVENT_BUTTON]
    obtain ⟨t1, t2, t3⟩ := bits_down_press j.key_state
    rw [hd]
    exact ⟨rfl, rfl, t1, t2, t3⟩
  · intro hnum hlo hhi
    have hd : decodeEvent ev j = { j with
        last_key_idx :=
          if j.key_state &&& KEYPAD_UP ≠ 0 then KEYPAD_UP
          else if j.key_state &&& KEYPAD_DOWN ≠ 0 then KEYPAD_DOWN
          else KEYPAD_NONE
        last_key_val := false
        key_state := Nat.ldiff (Nat.ldiff j.key_state KEYPAD_UP)
          KEYPAD_DOWN } := by
      simp only [decodeEvent, htype, hnum]
      simp [show ¬(ev.value ≤ -1024) by omega,
        show ¬(ev.value ≥ 1024) by omega, JS_EVENT_AXIS, JS_EVENT_BUTTON]
    obtain ⟨t1, t2, t3⟩ := bits_ud_dead j.key_state
    rw [hd]
    refine ⟨?_, rfl, t1, t2, t3⟩
    show (if j.key_state &&& KEYPAD_UP ≠ 0 then KEYPAD_UP
          else if j.key_state &&& KEYPAD_DOWN ≠ 0 then KEYPAD_DOWN
          else KEYPAD_NONE) = _
    simp only [landUp, landDown]

/-- Witness for C4 at the event (axis 0, value −1200) on a fresh joystick:
the decode yields a LEFT press. -/
theorem decodeEvent_axis_hysteresis_witness :
    (decodeEvent ⟨0, -1200, 2, 0⟩ (zeroJoystick 1)).last_key_idx
        = KEYPAD_LEFT ∧
    (decodeEvent ⟨0, -1200, 2, 0⟩ (zeroJoystick 1)).last_key_val = true :=
  have h := decodeEvent_axis_hysteresis ⟨0, -1200, 2, 0⟩ (zeroJoystick 1)
    (by decide)
  ⟨(h.1 rfl (by decide)).1, (h.1 rfl (by decide)).2.1⟩

theorem getD_dropLast {α : Type} (l : List α) (k : Nat) (d : α)
    (h : k + 1 < l.length) : l.dropLast.getD k d = l.getD k d := by
  rw [List.dropLast_eq_take]
  exact getD_take d (by omega)

/-- Claim C6: after `read_joystick` decodes an event, the history buffer
shifts one position toward higher indices with the decoded key stored at
index 0 — if and only if the decoded last key is a press
(`last_key_val = true`) of a key other than NONE; releases and NONE events
leave the buffer untouched. -/
theorem processEvent_history (ev : JsEvent) (j : Joystick)
    (hne : j.key_history ≠ []) :
    ((decodeEvent ev j).last_key_val = true ∧
        (decodeEvent ev j).last_key_idx ≠ KEYPAD_NONE →
      (processEvent ev j).key_history.length = j.key_history.length ∧
      (processEvent ev j).key_history.getD 0 0
        = (decodeEvent ev j).last_key_idx ∧
      ∀ k, k + 1 < j.key_history.length →
        (processEvent ev j).key_history.getD (k + 1) 0
          = j.key_history.getD k 0) ∧
    ((decodeEvent ev j).last_key_val = false ∨
        (decodeEvent ev j).last_key_idx = KEYPAD_NONE →
      (processEvent ev j).key_history = j.key_history) := by
  have hdh : (decodeEvent ev j).key_history = j.key_history :=
    decodeEvent_key_history ev j
  constructor
  · rintro ⟨hval, hidx⟩
    have hpush : (processEvent ev j).key_history
        = (decodeEvent ev j).last_key_idx :: j.key_history.dropLast := by
      rw [processEvent, pushHistory, if_pos ⟨hidx, hval⟩, hdh]
    rw [hpush]
    have hlen : j.key_history.length ≠ 0 := by
      intro h0
      exact hne (List.length_eq_zero.mp h0)
    refine ⟨?_, rfl, ?_⟩
    · simp only [List.length_cons, List.length_dropLast]
      omega
    · intro k hk
      simp only [List.getD_cons_succ]
      exact getD_dropLast _ _ _ hk
  · intro hrel
    have hcond : ¬((decodeEvent ev j).last_key_idx ≠ KEYPAD_NONE ∧
        (decodeEvent ev j).last_key_val = true) := by
      rcases hrel with h | h
      · rintro ⟨_, hv⟩; rw [h] at hv; cases hv
      · rintro ⟨hi, _⟩; exact hi h
    rw [processEvent, pushHistory, if_neg hcond, hdh]

/-- Witness for C6: a button-1 press event (decoded as an A press) on a
fresh joystick with history capacity 2 pushes A at history index 0 and
keeps the length. -/
theorem processEvent_history_witness :
    (processEvent ⟨0, 1, 1, 1⟩ (zeroJoystick 2)).key_history.length
        = (zeroJoystick 2).key_history.length ∧
    (processEvent ⟨0, 1, 1, 1⟩ (zeroJoystick 2)).key_history.getD 0 0
        = (decodeEvent ⟨0, 1, 1, 1⟩ (zeroJoystick 2)).last_key_idx :=
  have h := processEvent_history ⟨0, 1, 1, 1⟩ (zeroJoystick 2) (by decide)
  have hp := h.1 ⟨by decide, by decide⟩
  ⟨hp.1, hp.2.1⟩

/-- Witness for C5 at the concrete example joystick and the Konami-prefix
sequence `[A, B, LEFT]`. -/
theorem joystick_is_key_seq_correct_witness :
    (exampleHistoryJoystick.key_history.length = 10) ∧
    (joystick_is_key_seq 10 (some exampleHistoryJoystick)
        [KEYPAD_A, KEYPAD_B, KEYPAD_LEFT] = true ↔
      ([KEYPAD_A, KEYPAD_B, KEYPAD_LEFT].length ≤ 10 ∧
        ∀ k, ∀ (hk : k < [KEYPAD_A, KEYPAD_B, KEYPAD_LEFT].length),
          exampleHistoryJoystick.key_history.getD
            ([KEYPAD_A, KEYPAD_B, KEYPAD_LEFT].length - 1 - k) 0 =
            [KEYPAD_A, KEYPAD_B, KEYPAD_LEFT].get ⟨k, hk⟩)) :=
  ⟨by decide,
    (joystick_is_key_seq_correct 10 exampleHistoryJoystick (by decide)
      [KEYPAD_A, KEYPAD_B, KEYPAD_LEFT]).1⟩

/-! ## Player-number assignment (C1) -/

theorem getD_eq_get {α : Type} (l : List α) (i : Nat) (d : α)
    (h : i < l.length) : l.getD i d = l.get ⟨i, h⟩ := by
  induction l generalizing i with
  | nil => simp at h
  | cons a t ih =>
      cases i with
      | zero => simp
      | succ k => simpa using ih k (by simpa using h)

theorem firstFree_le_length (l : List Joystick) : firstFree l ≤ l.length := by
  induction l with
  | nil => simp [firstFree]
  | cons j t ih =>
      by_cases h : j.fd = -1 <;> simp [firstFree, h] <;> omega

theorem firstFree_active (d : Joystick) (l : List Joystick) (i : Nat)
    (hi : i < firstFree l) : (l.getD i d).fd ≠ -1 := by
  induction l generalizing i with
  | nil => simp [firstFree] at hi
  | cons j t ih =>
      by_cases h : j.fd = -1
      · simp [firstFree, h] at hi
      · cases i with
        | zero => simpa using h
        | succ k =>
            simp only [firstFree, if_neg h] at hi
            simpa using ih k (by omega)

theorem firstFree_free (d : Joystick) (l : List Joystick)
    (h : firstFree l < l.length) : (l.getD (firstFree l) d).fd = -1 := by
  induction l with
  | nil => simp at h
  | cons j t ih =>
      by_cases hj : j.fd = -1
      · simpa [firstFree, hj] using hj
      · simp only [firstFree, if_neg hj] at h ⊢
        simpa using ih (by simpa using h)

theorem firstFree_eq_of (d : Joystick) (l : List Joystick) (n : Nat)
    (hn : n ≤ l.length)
    (hact : ∀ j, j < n → (l.getD j d).fd ≠ -1)
    (hfree : n = l.length ∨ (l.getD n d).fd = -1) : firstFree l = n := by
  induction l generalizing n with
  | nil =>
      simp only [List.length_nil, Nat.le_zero] at hn
      subst hn
      rfl
  | cons a t ih =>
      cases n with
      | zero =>
          rcases hfree with h | h
          · simp at h
          · simp only [List.getD_cons_zero] at h
            simp [firstFree, h]
      | succ m =>
          have ha : a.fd ≠ -1 := by simpa using hact 0 (by omega)
          simp only [firstFree, if_neg ha]
          congr 1
          refine ih m (by simpa using hn) ?_ ?_
          · intro j hj
            simpa using hact (j + 1) (by omega)
          · rcases hfree with h | h
            · left; simpa using h
            · right; simpa using h

theorem findFreeIdx_firstFree (l : List Joystick) :
    (∀ i, findFreeIdx l = some i → firstFree l = i) ∧
    (findFreeIdx l = none → firstFree l = l.length) := by
  induction l with
  | nil => exact ⟨fun i h => by simp [findFreeIdx] at h, fun _ => rfl⟩
  | cons j t ih =>
      by_cases hj : j.fd = -1
      · refine ⟨fun i h => ?_, fun h => ?_⟩
        · simp only [findFreeIdx, if_pos hj] at h
          obtain rfl : i = 0 := by simpa using h.symm
          simp [firstFree, hj]
        · simp [findFreeIdx, hj] at h
      · refine ⟨fun i h => ?_, fun h => ?_⟩
        · simp only [findFreeIdx, if_neg hj] at h
          cases ht : findFreeIdx t with
          | none => rw [ht] at h; simp at h
          | some k =>
              rw [ht] at h
              simp only [Option.map_some'] at h
              obtain rfl : i = k + 1 := by simpa using h.symm
              simp [firstFree, hj, ih.1 k ht]
        · simp only [findFreeIdx, if_neg hj] at h
          cases ht : findFreeIdx t with
          | none => simp [firstFree, hj, ih.2 ht]
          | some k => rw [ht] at h; simp at h

theorem gapLoop_no_match (l : List Joystick) (p : Nat) :
    ∀ fuel i, l.length - i ≤ fuel →
      (∀ j, ∀ hj : j < l.length, i ≤ j → (l.get ⟨j, hj⟩).fd ≠ -1 →
        (l.get ⟨j, hj⟩).player ≠ p) →
      gapLoop l p i = p := by
  intro fuel
  induction fuel with
  | zero =>
      intro i hfu hnm
      rw [gapLoop, dif_neg (by omega)]
  | succ f ih =>
      intro i hfu hnm
      rw [gapLoop]
      by_cases hi : i < l.length
      · rw [dif_pos hi]
        have hcond : ¬((l.get ⟨i, hi⟩).fd ≠ -1 ∧
            (l.get ⟨i, hi⟩).player = p) := by
          rintro ⟨hfd, hp⟩
          exact hnm i hi le_rfl hfd hp
        rw [if_neg hcond]
        exact ih (i + 1) (by omega) (fun j hj hij => hnm j hj (by omega))
      · rw [dif_neg hi]

theorem gapLoop_to_match (l : List Joystick) (p : Nat)
    (hm : p - 1 < l.length) (hp : 1 ≤ p)
    (hact : (l.get ⟨p - 1, hm⟩).fd ≠ -1)
    (hpl : (l.get ⟨p - 1, hm⟩).player = p) :
    ∀ fuel i, p - 1 - i ≤ fuel → i ≤ p - 1 →
      (∀ j, ∀ hj : j < l.length, i ≤ j → j < p - 1 →
        (l.get ⟨j, hj⟩).fd ≠ -1 → (l.get ⟨j, hj⟩).player ≠ p) →
      gapLoop l p i = gapLoop l (p + 1) 1 := by
  intro fuel
  induction fuel with
  | zero =>
      intro i hfu hile hnm
      obtain rfl : i = p - 1 := by omega
      rw [gapLoop, dif_pos hm, if_pos ⟨hact, hpl⟩]
  | succ f ih =>
      intro i hfu hile hnm
      by_cases hieq : i = p - 1
      · subst hieq
        rw [gapLoop, dif_pos hm, if_pos ⟨hact, hpl⟩]
      · have hilt : i < p - 1 := by omega
        have hi : i < l.length := by omega
        rw [gapLoop, dif_pos hi]
        have hcond : ¬((l.get ⟨i, hi⟩).fd ≠ -1 ∧
            (l.get ⟨i, hi⟩).player = p) := by
          rintro ⟨hfd, hp'⟩
          exact hnm i hi le_rfl hilt hfd hp'
        rw [if_neg hcond]
        exact ih (i + 1) (by omega) (by omega)
          (fun j hj h1 h2 => hnm j hj (by omega) h2)

theorem gapLoop_of_inv (l : List Joystick) (hinv : PlayerInv l) :
    ∀ fuel p i, firstFree l + 2 - p ≤ fuel → 1 ≤ p → p ≤ firstFree l + 1 →
      (i = 0 ∨ (i = 1 ∧ 2 ≤ p)) →
      gapLoop l p i = firstFree l + 1 := by
  intro fuel
  induction fuel with
  | zero =>
      intro p i hfu hp1 hpk hi
      omega
  | succ f ih =>
      intro p i hfu hp1 hpk hi
      by_cases hpe : p = firstFree l + 1
      · subst hpe
        apply gapLoop_no_match l _ l.length i (by omega)
        intro j hj hij hfd hpl
        have h1 := hinv j hj hfd
        have hjk : j = firstFree l := by omega
        have hfl : firstFree l < l.length := by omega
        have hfree := firstFree_free (zeroJoystick 0) l hfl
        rw [getD_eq_get l (firstFree l) (zeroJoystick 0) hfl] at hfree
        apply hfd
        have hfin : (⟨j, hj⟩ : Fin l.length) = ⟨firstFree l, hfl⟩ :=
          Fin.ext hjk
        rw [hfin]
        exact hfree
      · have hple : p ≤ firstFree l := by omega
        have hm : p - 1 < l.length := by
          have := firstFree_le_length l; omega
        have hact : (l.get ⟨p - 1, hm⟩).fd ≠ -1 := by
          rw [← getD_eq_get l (p - 1) (zeroJoystick 0) hm]
          exact firstFree_active (zeroJoystick 0) l (p - 1) (by omega)
        have hpl : (l.get ⟨p - 1, hm⟩).player = p := by
          rw [hinv (p - 1) hm hact]; omega
        rw [gapLoop_to_match l p hm hp1 hact hpl (p - 1 - i) i le_rfl
          (by omega) ?_]
        · exact ih (p + 1) 1 (by omega) (by omega) (by omega) (by omega)
        · intro j hj hij hjlt hfd
          rw [hinv j hj hfd]
          omega

theorem playerInv_take_iff (l : List Joystick) (n : Nat) (hn : n ≤ l.length) :
    PlayerInv (l.take n) ↔
      ∀ i, i < n → (l.getD i (zeroJoystick 0)).fd ≠ -1 →
        (l.getD i (zeroJoystick 0)).player = i + 1 := by
  unfold PlayerInv
  constructor
  · intro h i hi hfd
    have hlen : i < (l.take n).length := by
      simp only [List.length_take]; omega
    have hx := h i hlen
    rw [← getD_eq_get (l.take n) i (zeroJoystick 0) hlen,
      getD_take (zeroJoystick 0) hi] at hx
    exact hx hfd
  · intro h i hlen
    have hi : i < n := by
      simp only [List.length_take] at hlen; omega
    rw [← getD_eq_get (l.take n) i (zeroJoystick 0) hlen,
      getD_take (zeroJoystick 0) hi]
    exact h i hi

theorem gap_eq_firstFree (s : InputState)
    (hinv : PlayerInv (s.joysticks.take s.num_joysticks)) :
    get_available_player s
      = firstFree (s.joysticks.take s.num_joysticks) + 1 :=
  gapLoop_of_inv (s.joysticks.take s.num_joysticks) hinv
    (firstFree (s.joysticks.take s.num_joysticks) + 2) 1 0 (by omega)
    (by omega) (by omega) (Or.inl rfl)

theorem stateInv_mk {MAX : Nat} (js : List Joystick) (n : Nat) (c m : Bool)
    (h1 : js.length = MAX) (h2 : n ≤ MAX) (h3 : PlayerInv (js.take n)) :
    StateInv MAX ⟨js, n, c, m⟩ := ⟨h1, h2, h3⟩

theorem gap_eq_firstFree_mk (js : List Joystick) (n : Nat) (c m : Bool)
    (hinv : PlayerInv (js.take n)) :
    get_available_player ⟨js, n, c, m⟩ = firstFree (js.take n) + 1 :=
  gap_eq_firstFree ⟨js, n, c, m⟩ hinv

theorem openPopulate_inv (MAX H : Nat) (dn : String) (rdev fdv : Nat)
    (a b : Int) (nm : String) (s : InputState) (h : StateInv MAX s) :
    StateInv MAX (openPopulate MAX H dn rdev fdv a b nm s).state := by
  obtain ⟨hlen, hnum, hinv⟩ := h
  have hnl : s.num_joysticks ≤ s.joysticks.length := by omega
  unfold openPopulate get_free_joystick
  cases hf : findFreeIdx (s.joysticks.take s.num_joysticks) with
  | some idx =>
      simp only [hf]
      obtain ⟨hidx, hfree, _⟩ := findFreeIdx_some (zeroJoystick 0) _ idx hf
      have hidxn : idx < s.num_joysticks := by
        simp only [List.length_take] at hidx; omega
      have hgap : get_available_player s = idx + 1 := by
        rw [gap_eq_firstFree s hinv,
          (findFreeIdx_firstFree (s.joysticks.take s.num_joysticks)).1 idx hf]
      apply stateInv_mk
      · simp [hlen]
      · exact hnum
      · rw [playerInv_take_iff _ _ (by simp [hlen]; omega)]
        intro i hi
        rw [getD_set_ne _ _ _ _ _ (by omega)]
        by_cases hie : i = idx
        · subst hie
          rw [getD_set_eq _ _ _ _ (by omega)]
          intro _
          simpa using hgap
        · rw [getD_set_ne _ _ _ _ _ (fun he => hie he.symm)]
          exact (playerInv_take_iff s.joysticks s.num_joysticks hnl).mp hinv
            i hi
  | none =>
      simp only [hf]
      by_cases hlt : s.num_joysticks < MAX
      · simp only [if_pos hlt]
        have hall : ∀ j, j < s.num_joysticks →
            (s.joysticks.getD j (zeroJoystick 0)).fd ≠ -1 := by
          intro j hj
          have hx := findFreeIdx_none (zeroJoystick 0) _ hf j
            (by simp only [List.length_take]; omega)
          rwa [getD_take (zeroJoystick 0) hj] at hx
        have hinv1 : PlayerInv
            ((s.joysticks.set s.num_joysticks
              { s.joysticks.getD s.num_joysticks (zeroJoystick H) with
                fd := -1 }).take (s.num_joysticks + 1)) := by
          rw [playerInv_take_iff _ _ (by simp [hlen]; omega)]
          intro i hi
          by_cases hie : i = s.num_joysticks
          · subst hie
            rw [getD_set_eq _ _ _ _ (by omega)]
            intro hfd
            exact absurd rfl hfd
          · rw [getD_set_ne _ _ _ _ _ (fun he => hie he.symm)]
            exact (playerInv_take_iff s.joysticks s.num_joysticks hnl).mp hinv
              i (by omega)
        have hgap : get_available_player
            { s with
              joysticks := s.joysticks.set s.num_joysticks
                { s.joysticks.getD s.num_joysticks (zeroJoystick H) with
                  fd := -1 }
              num_joysticks := s.num_joysticks + 1 }
            = s.num_joysticks + 1 := by
          rw [gap_eq_firstFree_mk _ _ _ _ hinv1]
          congr 1
          apply firstFree_eq_of (zeroJoystick 0) _ s.num_joysticks
          · simp only [List.length_take, List.length_set]
            omega
          · intro j hj
            rw [getD_take (zeroJoystick 0) (by omega),
              getD_set_ne _ _ _ _ _ (by omega)]
            exact hall j hj
          · right
            rw [getD_take (zeroJoystick 0) (by omega),
              getD_set_eq _ _ _ _ (by omega)]
        apply stateInv_mk
        · simp [hlen]
        · omega
        · rw [playerInv_take_iff _ _ (by simp [hlen]; omega)]
          intro i hi
          rw [getD_set_ne _ _ _ _ _ (by omega)]
          by_cases hie : i = s.num_joysticks
          · subst hie
            rw [getD_set_eq _ _ _ _ (by simp [hlen]; omega)]
            intro _
            simpa using hgap
          · rw [getD_set_ne _ _ _ _ _ (fun he => hie he.symm),
              getD_set_ne _ _ _ _ _ (fun he => hie he.symm)]
            exact (playerInv_take_iff s.joysticks s.num_joysticks hnl).mp hinv
              i (by omega)
      · simp only [if_neg hlt]
        exact ⟨hlen, hnum, hinv⟩

theorem open_joystick_inv (MAX H : Nat) (dn : String) (rdev : Nat)
    (openRes : Option Nat) (probe : Except Nat Int)
    (axesQ buttonsQ : Option Int) (nameQ : Option String) (chk : Bool)
    (s : InputState) (h : StateInv MAX s) :
    StateInv MAX (open_joystick MAX H dn rdev openRes probe axesQ buttonsQ
      nameQ chk s).state := by
  unfold open_joystick
  cases openRes with
  | none => exact h
  | some fdv =>
      cases chk with
      | false => exact openPopulate_inv MAX H dn rdev fdv _ _ _ s h
      | true =>
          cases probe with
          | error e => exact h
          | ok v =>
              by_cases hv : v = 0
              · simpa [hv] using h
              · simpa [hv] using openPopulate_inv MAX H dn rdev fdv
                  (axesQ.getD 0) (buttonsQ.getD 0) (nameQ.getD "") s h

theorem add_udev_device_inv (MAX H : Nat) (devnode : Option String)
    (statRes openRes : Option Nat) (probe : Except Nat Int)
    (axesQ buttonsQ : Option Int) (nameQ : Option String) (s : InputState)
    (h : StateInv MAX s) :
    StateInv MAX (add_udev_device MAX H devnode statRes openRes probe axesQ
      buttonsQ nameQ s).1 := by
  unfold add_udev_device
  cases devnode with
  | none => exact h
  | some dn =>
      by_cases hd : dn = ""
      · simpa [hd] using h
      · cases statRes with
        | none => simpa [hd] using h
        | some rdev =>
            by_cases hdup : hasDuplicateDev s rdev
            · simpa [hd, hdup] using h
            · simpa [hd, hdup] using open_joystick_inv MAX H dn rdev openRes
                probe axesQ buttonsQ nameQ true s h

theorem removeSlots_length (dn : String) :
    ∀ (n : Nat) (l : List Joystick), (removeSlots dn n l).length = l.length := by
  intro n l
  induction l generalizing n with
  | nil => cases n <;> rfl
  | cons j t ih =>
      cases n with
      | zero => rfl
      | succ m => simpa [removeSlots] using ih m

theorem removeSlots_getD (dn : String) (d : Joystick) :
    ∀ (n : Nat) (l : List Joystick) (i : Nat),
      (removeSlots dn n l).getD i d = l.getD i d ∨
      (removeSlots dn n l).getD i d = { l.getD i d with fd := -1 } := by
  intro n l
  induction l generalizing n with
  | nil => intro i; left; cases n <;> rfl
  | cons j t ih =>
      intro i
      cases n with
      | zero => left; rfl
      | succ m =>
          cases i with
          | zero =>
              simp only [removeSlots, List.getD_cons_zero]
              by_cases hc : j.fd ≠ -1 ∧ j.devnode = dn
              · right; simp [hc]
              · left; simp [hc]
          | succ k =>
              simp only [removeSlots, List.getD_cons_succ]
              exact ih m k

theorem remove_udev_device_inv (devnode : Option String) (s : InputState)
    {MAX : Nat} (h : StateInv MAX s) :
    StateInv MAX (remove_udev_device devnode s) := by
  obtain ⟨hlen, hnum, hinv⟩ := h
  have hnl : s.num_joysticks ≤ s.joysticks.length := by omega
  unfold remove_udev_device
  cases devnode with
  | none => exact ⟨hlen, hnum, hinv⟩
  | some dn =>
      show StateInv MAX
        (if dn = "" then s
         else { s with
           joysticks := removeSlots dn s.num_joysticks s.joysticks })
      by_cases hd : dn = ""
      · rw [if_pos hd]
        exact ⟨hlen, hnum, hinv⟩
      · rw [if_neg hd]
        apply stateInv_mk
        · rw [removeSlots_length]; exact hlen
        · exact hnum
        · rw [playerInv_take_iff _ _ (by rw [removeSlots_length]; omega)]
          intro i hi
          rcases removeSlots_getD dn (zeroJoystick 0) s.num_joysticks
            s.joysticks i with hcase | hcase
          · rw [hcase]
            exact (playerInv_take_iff s.joysticks s.num_joysticks hnl).mp hinv
              i hi
          · rw [hcase]
            intro hfd
            exact absurd rfl hfd

theorem input_reset_inv (s : InputState) {MAX : Nat} (h : StateInv MAX s) :
    StateInv MAX (input_reset s) := by
  obtain ⟨hlen, hnum, _⟩ := h
  refine ⟨by simp [input_reset, closeSlots_length, hlen], ?_, ?_⟩
  · show (0 : Nat) ≤ MAX
    omega
  · intro i hi
    simp [input_reset] at hi

theorem processEvent_fd_player (ev : JsEvent) (j : Joystick) :
    (processEvent ev j).fd = j.fd ∧ (processEvent ev j).player = j.player := by
  have hd : (decodeEvent ev j).fd = j.fd ∧
      (decodeEvent ev j).player = j.player := by
    unfold decodeEvent
    repeat' split
    all_goals exact ⟨rfl, rfl⟩
  unfold processEvent pushHistory
  split
  · exact hd
  · exact hd

theorem readStep_inv (H i : Nat) (ev : JsEvent) (s : InputState)
    {MAX : Nat} (h : StateInv MAX s) :
    StateInv MAX (readStep H i ev s) := by
  obtain ⟨hlen, hnum, hinv⟩ := h
  have hnl : s.num_joysticks ≤ s.joysticks.length := by omega
  unfold readStep
  split
  · rename_i hc
    refine ⟨by simp [hlen], hnum, ?_⟩
    rw [playerInv_take_iff _ _ (by simp; omega)]
    intro k hk
    by_cases hki : k = i
    · subst hki
      rw [getD_set_eq _ _ _ _ (by omega)]
      obtain ⟨hfd, hpl⟩ := processEvent_fd_player ev
        (s.joysticks.getD k (zeroJoystick H))
      rw [hfd, hpl]
      intro hact
      have hx := (playerInv_take_iff s.joysticks s.num_joysticks hnl).mp hinv
        k hk
      rw [getD_eq_get s.joysticks k (zeroJoystick 0) (by omega),
        ← getD_eq_get s.joysticks k (zeroJoystick H) (by omega)] at hx
      exact hx hact
    · rw [getD_set_ne _ _ _ _ _ (fun he => hki he.symm)]
      exact (playerInv_take_iff s.joysticks s.num_joysticks hnl).mp hinv k hk
  · exact ⟨hlen, hnum, hinv⟩

theorem step_stateInv {MAX H : Nat} {s s' : InputState}
    (hstep : Step MAX H s s') (h : StateInv MAX s) : StateInv MAX s' := by
  cases hstep with
  | openJs dn rdev openRes probe aQ bQ nQ chk s =>
      exact open_joystick_inv MAX H dn rdev openRes probe aQ bQ nQ chk s h
  | add dn statRes openRes probe aQ bQ nQ s =>
      exact add_udev_device_inv MAX H dn statRes openRes probe aQ bQ nQ s h
  | remove dn s => exact remove_udev_device_inv dn s h
  | reset s => exact input_reset_inv s h
  | hotplugInit mo s => exact h
  | read i ev s => exact readStep_inv H i ev s h

theorem reachable_stateInv {MAX H : Nat} {s : InputState}
    (hr : Reachable MAX H s) : StateInv MAX s := by
  induction hr with
  | init =>
      refine ⟨by simp [initState], by simp [initState], ?_⟩
      intro i hi
      simp [initState] at hi
  | step hprev hstep ih => exact step_stateInv hstep ih

theorem mem_players_iff (L : List Joystick) (q : Nat) :
    q ∈ (L.filter (fun j => j.fd ≠ -1)).map (fun j => j.player) ↔
      ∃ i, ∃ h : i < L.length,
        (L.get ⟨i, h⟩).fd ≠ -1 ∧ (L.get ⟨i, h⟩).player = q := by
  rw [List.mem_map]
  constructor
  · rintro ⟨j, hjf, hq⟩
    rw [List.mem_filter] at hjf
    obtain ⟨hjl, hpred⟩ := hjf
    obtain ⟨⟨i, hi⟩, hget⟩ := List.mem_iff_get.mp hjl
    refine ⟨i, hi, ?_, ?_⟩
    · rw [hget]; simpa using hpred
    · rw [hget]; exact hq
  · rintro ⟨i, hi, hfd, hq⟩
    refine ⟨L.get ⟨i, hi⟩, ?_, hq⟩
    rw [List.mem_filter]
    exact ⟨List.get_mem L i hi, by simpa using hfd⟩

/-- Claim C1, amended: on every reachable state, `get_available_player` —
called while the slot being populated is still marked free — returns the
smallest positive integer not currently held by any active slot.  (The
blanket form "each active slot's player number is the smallest positive
integer not held by any other active slot" fails after out-of-order
removals; see the counterexample.) -/
theorem get_available_player_minimal (MAX H : Nat) (s : InputState)
    (hr : Reachable MAX H s) :
    1 ≤ get_available_player s ∧
    get_available_player s ∉ activePlayers s ∧
    ∀ q, 1 ≤ q → q < get_available_player s → q ∈ activePlayers s := by
  obtain ⟨hlen, hnum, hinv⟩ := reachable_stateInv hr
  have hgap := gap_eq_firstFree s hinv
  have hffl := firstFree_le_length (s.joysticks.take s.num_joysticks)
  refine ⟨by omega, ?_, ?_⟩
  · simp only [activePlayers]
    rw [mem_players_iff]
    rintro ⟨i, hi, hfd, hq⟩
    rw [hgap] at hq
    have h1 := hinv i hi hfd
    have hik : i = firstFree (s.joysticks.take s.num_joysticks) := by omega
    have hfl : firstFree (s.joysticks.take s.num_joysticks)
        < (s.joysticks.take s.num_joysticks).length := by omega
    have hfree := firstFree_free (zeroJoystick 0) _ hfl
    rw [getD_eq_get _ _ _ hfl] at hfree
    apply hfd
    have hfin : (⟨i, hi⟩ :
        Fin (s.joysticks.take s.num_joysticks).length) = ⟨_, hfl⟩ :=
      Fin.ext hik
    rw [hfin]
    exact hfree
  · intro q hq1 hqlt
    rw [hgap] at hqlt
    simp only [activePlayers]
    rw [mem_players_iff]
    have hqi : q - 1 < firstFree (s.joysticks.take s.num_joysticks) := by
      omega
    have hqlen : q - 1 < (s.joysticks.take s.num_joysticks).length := by omega
    have hact := firstFree_active (zeroJoystick 0) _ (q - 1) hqi
    rw [getD_eq_get _ _ _ hqlen] at hact
    refine ⟨q - 1, hqlen, hact, ?_⟩
    rw [hinv (q - 1) hqlen hact]
    omega

/-- Witness for C1's amended claim: at the initial state with capacity 2,
`get_available_player` returns a positive number not held by any active
slot, below which every positive number is held. -/
theorem get_available_player_minimal_witness :
    1 ≤ get_available_player (initState 2 1) ∧
    get_available_player (initState 2 1) ∉ activePlayers (initState 2 1) ∧
    ∀ q, 1 ≤ q → q < get_available_player (initState 2 1) →
      q ∈ activePlayers (initState 2 1) :=
  get_available_player_minimal 2 1 (initState 2 1) Reachable.init

/-- Counterexample to C1 as literally stated: after opening devices "a" and
"b" and hot-removing "a" (a reachable sequence), slot 1 is active holding
player 2, yet player 1 is not held by any other active slot — so an active
slot's player number is *not* always the smallest positive integer not held
by any other currently active slot. -/
theorem player_invariant_counterexample :
    Reachable 3 1 removedFirstState ∧
    removedFirstState.num_joysticks = 2 ∧
    (removedFirstState.joysticks.getD 1 (zeroJoystick 1)).fd ≠ -1 ∧
    (removedFirstState.joysticks.getD 1 (zeroJoystick 1)).player = 2 ∧
    1 ∉ activePlayers removedFirstState ∧
    ¬ (∀ i, i < removedFirstState.num_joysticks →
        (removedFirstState.joysticks.getD i (zeroJoystick 1)).fd ≠ -1 →
        ∀ q, 1 ≤ q →
          q < (removedFirstState.joysticks.getD i (zeroJoystick 1)).player →
          ∃ i2, i2 < removedFirstState.num_joysticks ∧ i2 ≠ i ∧
            (removedFirstState.joysticks.getD i2 (zeroJoystick 1)).fd ≠ -1 ∧
            (removedFirstState.joysticks.getD i2 (zeroJoystick 1)).player
              = q) := by
  have hS : removedFirstState =
      ⟨[⟨-1, "a", 10, 0, 0, "", 1, 0, 0, false, [0]⟩,
        ⟨6, "b", 11, 0, 0, "", 2, 0, 0, false, [0]⟩,
        ⟨0, "", 0, 0, 0, "", 0, 0, 0, false, [0]⟩], 2, false, false⟩ := by
    simp [removedFirstState, open_joystick, openPopulate, get_free_joystick,
      findFreeIdx, get_available_player, gapLoop, remove_udev_device,
      removeSlots, initState, zeroJoystick, KEYPAD_NONE]
  refine ⟨?_, ?_, ?_, ?_, ?_, ?_⟩
  · have h0 : Reachable 3 1 (initState 3 1) := Reachable.init
    have h1 := Reachable.step h0
      (Step.openJs "a" 10 (some 5) (.ok 1) none none none false
        (initState 3 1))
    have h2 := Reachable.step h1
      (Step.openJs "b" 11 (some 6) (.ok 1) none none none false _)
    exact Reachable.step h2 (Step.remove (some "a") _)
  · rw [hS]
  · rw [hS]; decide
  · rw [hS]; rfl
  · rw [hS]; decide
  · rw [hS]
    intro hall
    obtain ⟨i2, hi2, hne, hact, hpl⟩ :=
      hall 1 (by decide) (by decide) 1 (by decide) (by decide)
    have hi2' : i2 < 2 := hi2
    rcases i2 with _ | _ | n
    · exact hact rfl
    · exact hne rfl
    · omega

end Clubmate
